import Mathlib

/-!
Verification development for the logos workflow engine.

The definitions below are a shallow embedding of the Python sources
`workflow_runner.py` and `client.py`:

* Python values that flow through the workflow context are modelled by
  `PyVal` (all modelled values are JSON-serializable; opaque objects never
  appear in the dictionaries the modelled code paths build).
* Python dictionaries are association lists with insertion order preserved
  and assignment-overwrite semantics (`pySet`, `pyUpdate`).
* External collaborators (the tiktoken tokenizer, the Anthropic model
  channel, the MCP tool channel, `json.loads`) are parameters of the
  embedded functions: the code treats them as opaque remote calls.  The
  tokenizer fallback `len(text) // 4`, which is itself in the source, is
  embedded concretely as `countTokensFallback`.
* Python float arithmetic inside `_truncate_content_fallback` is modelled
  by exact rational arithmetic with `int()` as truncation toward zero;
  every theorem below instantiates it only at values on which IEEE double
  arithmetic is exact, so the model and the program agree there.
-/

namespace Logos

/-- JSON-compatible Python values as they appear in the workflow context. -/
inductive PyVal where
  | none
  | bool (b : Bool)
  | int (n : Int)
  | str (s : String)
  | list (l : List PyVal)
  | dict (d : List (String × PyVal))

/-- A Python `dict[str, Any]` with insertion order. -/
abbrev PyDict := List (String × PyVal)

/-- Locate the entry bound to a key (Python dict lookup). -/
def pyFind (k : String) : PyDict → Option (String × PyVal)
  | [] => Option.none
  | p :: rest => if p.1 == k then some p else pyFind k rest

/-- `d.get(k)`: `None` when the key is absent. -/
def pyLookup (d : PyDict) (k : String) : Option PyVal :=
  match pyFind k d with
  | Option.none => Option.none
  | some p => some p.2

/-- `d.get(k, default)`. -/
def pyGetD (d : PyDict) (k : String) (dflt : PyVal) : PyVal :=
  match pyLookup d k with
  | Option.none => dflt
  | some v => v

/-- `d[k] = v`: overwrite in place, or append preserving insertion order. -/
def pySet (d : PyDict) (k : String) (v : PyVal) : PyDict :=
  if (pyFind k d).isSome then
    d.map (fun p => if p.1 == k then (k, v) else p)
  else d ++ [(k, v)]

/-- `d.update(updates)`. -/
def pyUpdate (d : PyDict) (updates : PyDict) : PyDict :=
  updates.foldl (fun acc kv => pySet acc kv.1 kv.2) d

/-- Python truthiness of a `PyVal` (`if not decision_result`). -/
def pyTruthy : PyVal → Bool
  | .none => false
  | .bool b => b
  | .int n => n != 0
  | .str s => s != ""
  | .list l => !l.isEmpty
  | .dict d => !d.isEmpty

/-! ### String helpers mirroring Python `str` operations -/

/-- Worker for `pyReplace`; fuel is the length of the scanned list, which
bounds the number of recursion steps for a non-empty pattern. -/
def replaceAllAux (pat rep : List Char) : Nat → List Char → List Char
  | 0, s => s
  | Nat.succ fuel, s =>
    match s with
    | [] => []
    | c :: rest =>
      if pat.isPrefixOf s then rep ++ replaceAllAux pat rep fuel (s.drop pat.length)
      else c :: replaceAllAux pat rep fuel rest

/-- Python `s.replace(pat, rep)`: every non-overlapping occurrence,
scanning left to right (callers never pass an empty pattern). -/
def pyReplace (s pat rep : String) : String :=
  ⟨replaceAllAux pat.data rep.data s.data.length s.data⟩

/-- Worker for `strContains`. -/
def containsSub : List Char → List Char → Bool
  | [], pat => pat.isEmpty
  | c :: rest, pat => pat.isPrefixOf (c :: rest) || containsSub rest pat

/-- Python `pat in s` (substring containment). -/
def strContains (s pat : String) : Bool := containsSub s.data pat.data

/-- The whitespace set of Python `str.strip()` (the characters the
modelled strings can contain). -/
def isPyWhitespace (c : Char) : Bool :=
  c == ' ' || c == '\t' || c == '\n' || c == '\r' || c == '\x0b' || c == '\x0c'

/-- Python `s.strip()`: drop leading and trailing whitespace. -/
def pyStrip (s : String) : String :=
  ⟨((s.data.dropWhile isPyWhitespace).reverse.dropWhile isPyWhitespace).reverse⟩

/-- Worker for `pySplitColon`. -/
def splitOnCharAux (sep : Char) : List Char → List Char → List String
  | [], acc => [⟨acc.reverse⟩]
  | c :: rest, acc =>
    if c == sep then ⟨acc.reverse⟩ :: splitOnCharAux sep rest []
    else splitOnCharAux sep rest (c :: acc)

/-- Python `s.split(":")` (the separator the source splits conditions on
is the single character `:`). -/
def pySplitColon (s : String) : List String := splitOnCharAux ':' s.data []

/-! ### Token estimator (client.py `_count_tokens`)

The primary path calls tiktoken, an external library: theorems are
parametric in the estimator.  The source's own fallback branch is
`len(text) // 4`: -/

/-- The `except` branch of `_count_tokens`: `len(text) // 4`. -/
def countTokensFallback (s : String) : Nat := s.length / 4

/-! ### Content Overflow Manager (client.py `_summarize_large_content`
and `_truncate_content_fallback`) -/

/-- Python `int(q)`: truncation toward zero, computed on the reduced
numerator and denominator (for `q ≥ 0` this is the floor `num / den`;
for `q < 0` it is the negated truncation of `-q`). -/
def pyInt (q : ℚ) : Int :=
  if 0 ≤ q then (q.num.toNat / q.den : Nat)
  else -((((-q).num.toNat / (-q).den : Nat) : Int))

/-- Python `s[:k]` for an `int` bound `k` (a negative bound counts from
the end, clamped at zero). -/
def pySliceTo (s : String) (k : Int) : String :=
  if 0 ≤ k then ⟨s.data.take k.toNat⟩
  else ⟨s.data.take ((s.length : Int) + k).toNat⟩

/-- The truncation notice appended by `_truncate_content_fallback`. -/
def truncationNotice (maxTokens : Nat) (toolName : String) (originalTokens : Nat) : String :=
  "\n\n[CONTENT TRUNCATED - Original: " ++ toString originalTokens ++ " tokens from "
    ++ toolName ++ ", showing first " ++ toString maxTokens ++ " tokens]"

/-- The `while` loop of `_truncate_content_fallback`: shrink to 90% of the
current length until the estimate fits the target or 100 characters
remain.  Fuel is the initial length; each iteration strictly shrinks the
string (the guard requires length > 100), so the fuel never runs out on
the calls the source makes. -/
def truncateLoop (countTokens : String → Nat) (targetTokens : Int) : Nat → String → String
  | 0, t => t
  | Nat.succ fuel, t =>
    if (countTokens t : Int) > targetTokens ∧ t.length > 100 then
      truncateLoop countTokens targetTokens fuel
        (pySliceTo t (pyInt ((t.length : ℚ) * (9 / 10))))
    else t

/-- The local `target_tokens = max_tokens - self._count_tokens(truncation_msg)`
(a Python `int`, so possibly negative). -/
def truncTarget (countTokens : String → Nat) (maxTokens originalTokens : Nat)
    (toolName : String) : Int :=
  (maxTokens : Int) - (countTokens (truncationNotice maxTokens toolName originalTokens) : Int)

/-- The local `chars_per_token = len(text) / original_tokens if original_tokens > 0 else 4`. -/
def truncCharsPerToken (text : String) (originalTokens : Nat) : ℚ :=
  if originalTokens > 0 then (text.length : ℚ) / (originalTokens : ℚ) else 4

/-- The local `estimated_chars = int(target_tokens * chars_per_token)`. -/
def truncEstimatedChars (countTokens : String → Nat) (text : String)
    (maxTokens originalTokens : Nat) (toolName : String) : Int :=
  pyInt ((truncTarget countTokens maxTokens originalTokens toolName : ℚ)
    * truncCharsPerToken text originalTokens)

/-- `_truncate_content_fallback(text, max_tokens, tool_name, original_tokens)`. -/
def truncateContentFallback (countTokens : String → Nat) (text : String) (maxTokens : Nat)
    (toolName : String) (originalTokens : Nat) : String :=
  let targetTokens := truncTarget countTokens maxTokens originalTokens toolName
  let truncated := pySliceTo text (truncEstimatedChars countTokens text maxTokens originalTokens toolName)
  truncateLoop countTokens targetTokens truncated.length truncated
    ++ truncationNotice maxTokens toolName originalTokens

/-- Splitting into fixed-size character chunks
(`for i in range(0, len(text), chunk_size_chars)`). -/
def splitChunksAux (chunkSize : Nat) : Nat → String → List String
  | 0, _ => []
  | Nat.succ fuel, s =>
    if s.length = 0 then []
    else ⟨s.data.take chunkSize⟩ :: splitChunksAux chunkSize fuel ⟨s.data.drop chunkSize⟩

/-- The 100,000-character chunking of `_summarize_large_content`. -/
def splitChunks (s : String) : List String := splitChunksAux 100000 s.length s

/-- Outcome of one concurrent chunk-summarization task, as observed by
`asyncio.gather(..., return_exceptions=True)`:
a successful remote summary, an exception caught inside
`summarize_chunk` itself, or an exception escaping to `gather`. -/
inductive ChunkOutcome where
  | success (s : String)
  | innerFail
  | outerFail

/-- Placeholder produced inside `summarize_chunk`'s own `except` branch. -/
def innerFailNotice (i : Nat) : String :=
  "[Chunk " ++ toString (i + 1) ++ " summarization failed]"

/-- Placeholder produced by the combination loop for a task `gather`
returned as an exception. -/
def outerFailNotice (i : Nat) : String :=
  "[Chunk " ++ toString (i + 1) ++ " failed to summarize]"

/-- What `gather` yields for chunk `i`: `summarize_chunk` strips a
successful remote summary, converts its own exceptions to a placeholder,
and anything escaping the task surfaces as an exception value. -/
def gatherChunkResult (chunkOut : Nat → String → ChunkOutcome) (i : Nat) (c : String) :
    Except Unit String :=
  match chunkOut i c with
  | .success s => .ok (pyStrip s)
  | .innerFail => .ok (innerFailNotice i)
  | .outerFail => .error ()

/-- The combination loop over `chunk_summaries`, in original chunk order. -/
def combinedChunkSummaries (chunkOut : Nat → String → ChunkOutcome)
    (chunks : List String) : List String :=
  chunks.enum.map (fun p =>
    match gatherChunkResult chunkOut p.1 p.2 with
    | .ok s => s
    | .error _ => outerFailNotice p.1)

/-- The metadata header prefixed to the combined summary. -/
def summaryHeader (tokenCount : Nat) (toolName : String) (numChunks : Nat) : String :=
  "[CONTENT SUMMARIZED - Original: " ++ toString tokenCount ++ " tokens from "
    ++ toolName ++ ", " ++ toString numChunks ++ " chunks]\n\n"

/-- The non-empty chunks `_summarize_large_content` builds for `text`. -/
def boundedChunks (countTokens : String → Nat) (text : String) : List String :=
  (splitChunks text).filter (fun c => 0 < countTokens c)

/-- The local `final_summary = summary_header + full_summary`. -/
def combinedSummary (countTokens : String → Nat) (chunkOut : Nat → String → ChunkOutcome)
    (text : String) (toolName : String) : String :=
  summaryHeader (countTokens text) toolName (boundedChunks countTokens text).length
    ++ String.intercalate "\n\n"
      (combinedChunkSummaries chunkOut (boundedChunks countTokens text))

/-- `_summarize_large_content(content, max_tokens, tool_name)` for text
(`str` or `None`) content; an error value models the raised `ValueError`.
Structured (`dict`/`list`) content is first serialized by the source and
then follows the same text path. -/
def summarizeLargeContent (countTokens : String → Nat)
    (chunkOut : Nat → String → ChunkOutcome)
    (content : Option String) (maxTokens : Nat) (toolName : String) :
    Except String String :=
  match content with
  | Option.none => .ok ""
  | some text =>
    let tokenCount := countTokens text
    if tokenCount ≤ maxTokens then .ok text
    else if tokenCount > 1000000 then
      .error ("Content from " ++ toolName ++ " exceeds maximum limit of 1,000,000 tokens ("
        ++ toString tokenCount ++ " tokens). Cannot process.")
    else
      let finalSummary := combinedSummary countTokens chunkOut text toolName
      let summaryTokens := countTokens finalSummary
      if summaryTokens > maxTokens then
        .ok (truncateContentFallback countTokens finalSummary maxTokens toolName summaryTokens)
      else .ok finalSummary

/-! ### Workflow data model (models.py / workflow_runner.py) -/

/-- `WorkflowStep`: `{step, description, type}` — the step model carries no
per-step config of its own. -/
structure WStep where
  step : String
  description : String
  type : String

/-- `WorkflowContext`: variables plus the per-step output side-index. -/
structure Ctx where
  vars : PyDict
  stepOutputs : List (Nat × PyDict)

/-- `context.get(key)` (missing key and a stored `None` both read as `None`). -/
def ctxGet (c : Ctx) (k : String) : PyVal := pyGetD c.vars k PyVal.none

/-- `context.set(key, value)`. -/
def ctxSet (c : Ctx) (k : String) (v : PyVal) : Ctx :=
  { c with vars := pySet c.vars k v }

/-- `context.update(updates)`. -/
def ctxUpdate (c : Ctx) (us : PyDict) : Ctx :=
  { c with vars := pyUpdate c.vars us }

/-- `step_outputs[i] = outs` on the side-index. -/
def setStepOutput (d : List (Nat × PyDict)) (k : Nat) (v : PyDict) : List (Nat × PyDict) :=
  if (d.find? (fun p => p.1 == k)).isSome then
    d.map (fun p => if p.1 == k then (k, v) else p)
  else d ++ [(k, v)]

/-- `context.track_step_output(step_index, outputs)`. -/
def trackStepOutput (c : Ctx) (i : Nat) (outs : PyDict) : Ctx :=
  { vars := pyUpdate c.vars outs,
    stepOutputs := setStepOutput c.stepOutputs i outs }

/-! ### Step configuration (`STEP_DEFAULTS` and `get_step_config`) -/

/-- The `STEP_DEFAULTS` table, verbatim. -/
def stepDefaults (t : String) : PyDict :=
  if t == "input" then
    [("variable_name", .str "step_\x7bindex\x7d_input"),
     ("default_value", .none),
     ("output_variable_name", .str "step_\x7bindex\x7d_result")]
  else if t == "trigger" then
    [("output_variable_name", .str "step_\x7bindex\x7d_result")]
  else if t == "output" then
    [("output_variables", .list [.str "step_\x7bindex\x7d_result"]), ("format", .none)]
  else if t == "process" then
    [("input_variables", .list [.str "step_\x7bprev_index\x7d_result"]),
     ("output_variable_name", .str "step_\x7bindex\x7d_result")]
  else if t == "tool" then
    [("tool_name", .str "exa_search"),
     ("input_mapping", .dict [("query", .str "step_\x7bprev_index\x7d_result")]),
     ("output_mapping", .dict [("search_results", .str "$output")])]
  else if t == "decision" then
    [("condition", .str "not_empty:step_result"),
     ("input_variables", .list [.str "step_\x7bprev_index\x7d_result"])]
  else if t == "transform" then
    [("transformation", .str "json_stringify"),
     ("input_variables", .list [.str "step_\x7bprev_index\x7d_result"]),
     ("output_variable", .str "step_\x7bindex\x7d_result")]
  else []

/-- The placeholder substitution `get_step_config` applies to one default
value: strings get `\x7bindex\x7d` replaced and `\x7bprev_index\x7d` replaced by the
previous index (by the empty string at index 0); list elements containing
`\x7bprev_index\x7d` are dropped at index 0, and substituted only at index > 0;
any other value (`None`, dict) passes through untouched. -/
def substDefault (stepIndex : Nat) (v : PyVal) : PyVal :=
  match v with
  | .str s =>
    .str (pyReplace (pyReplace s "\x7bindex\x7d" (toString stepIndex))
      "\x7bprev_index\x7d" (if stepIndex > 0 then toString (stepIndex - 1) else ""))
  | .list items =>
    .list ((items.filter (fun item =>
        !(match item with
          | .str s => strContains s "\x7bprev_index\x7d" && stepIndex == 0
          | _ => false))).map
      (fun item =>
        match item with
        | .str s =>
          if stepIndex > 0 then
            .str (pyReplace (pyReplace s "\x7bindex\x7d" (toString stepIndex))
              "\x7bprev_index\x7d" (toString (stepIndex - 1)))
          else item
        | other => other))
  | other => other

/-- `get_step_config(step_index)`. -/
def getStepConfig (steps : List WStep) (stepIndex : Nat) : PyDict :=
  match steps.get? stepIndex with
  | Option.none => []
  | some step =>
    let base : PyDict :=
      [("step", .str step.step), ("description", .str step.description),
       ("type", .str step.type)]
    (stepDefaults step.type).foldl
      (fun cfg kv => pySet cfg kv.1 (substDefault stepIndex kv.2)) base

/-! ### JSON serialization used by the direct `json_stringify` transform -/

/-- Escapes of the characters relevant to the modelled values (Python's
`json.dumps` additionally escapes control and non-ASCII characters, which
the modelled configurations never contain). -/
def jsonEscapeChar (c : Char) : String :=
  if c = '"' then "\\\""
  else if c = '\\' then "\\\\"
  else if c = '\n' then "\\n"
  else if c = '\t' then "\\t"
  else if c = '\r' then "\\r"
  else String.singleton c

/-- Escape a string for JSON output. -/
def jsonEscape (s : String) : String := String.join (s.data.map jsonEscapeChar)

mutual

/-- `json.dumps(v, default=str)` with default separators. -/
def pyJsonDumps : PyVal → String
  | .none => "null"
  | .bool true => "true"
  | .bool false => "false"
  | .int n => toString n
  | .str s => "\"" ++ jsonEscape s ++ "\""
  | .list l => "[" ++ String.intercalate ", " (pyJsonDumpsList l) ++ "]"
  | .dict d => "\x7b" ++ String.intercalate ", " (pyJsonDumpsDict d) ++ "\x7d"

/-- Serialize the elements of a JSON array. -/
def pyJsonDumpsList : List PyVal → List String
  | [] => []
  | v :: vs => pyJsonDumps v :: pyJsonDumpsList vs

/-- Serialize the entries of a JSON object. -/
def pyJsonDumpsDict : List (String × PyVal) → List String
  | [] => []
  | kv :: rest => ("\"" ++ jsonEscape kv.1 ++ "\": " ++ pyJsonDumps kv.2) :: pyJsonDumpsDict rest

end

/-! ### `_execute_step_with_llm` -/

/-- `v is None`. -/
def pyIsNone : PyVal → Bool
  | .none => true
  | _ => false

/-- Read a string-valued config entry; the engine only ever stores strings
under the keys this is used for. -/
def getStrD (v : PyVal) (dflt : String) : String :=
  match v with
  | .str s => s
  | _ => dflt

/-- Read a list-of-strings config entry, as the source iterates it; the
engine only ever stores lists of strings under these keys. -/
def pyStrList (v : PyVal) : List String :=
  match v with
  | .list l => l.filterMap (fun x => match x with | .str s => some s | _ => none)
  | _ => []

/-- The `is_empty` expression of the decision step's direct evaluation:
`value is None or value == "" or value == [] or value == \x7b\x7d or
(isinstance(value, str) and value.strip() == "")`. -/
def pyIsEmptyCheck : PyVal → Bool
  | .none => true
  | .str s => s == "" || pyStrip s == ""
  | .list l => l.isEmpty
  | .dict d => d.isEmpty
  | .bool _ => false
  | .int _ => false

/-- Index of the first occurrence of a character (Python `str.find`). -/
def strFind (s : String) (c : Char) : Option Nat := s.data.findIdx? (fun x => x == c)

/-- Index of the last occurrence of a character (Python `str.rfind`). -/
def strRFind (s : String) (c : Char) : Option Nat :=
  match s.data.reverse.findIdx? (fun x => x == c) with
  | Option.none => Option.none
  | some k => some (s.length - 1 - k)

/-- Python `s[i:j]` for natural bounds. -/
def pySlice (s : String) (i j : Nat) : String := ⟨(s.data.drop i).take (j - i)⟩

/-- The tail of `_execute_step_with_llm` after the input/decision early
returns: the direct `json_stringify` transform, then the LLM round trip.
The prompt strings the source assembles feed only the external model
call, which the `llmResult` parameter abstracts; `jsonParse` abstracts
`json.loads` (returning `none` for a `JSONDecodeError`).  An `llmResult`
error models `execute_llm_interaction` raising. -/
def llmStepTail (jsonParse : String → Option PyDict) (llmResult : Except String String)
    (agentName agentId : String) (stepType : String) (stepIndex : Nat)
    (config : PyDict) (ctx : Ctx) : PyDict × Ctx :=
  let inputVariables := pyStrList (pyGetD config "input_variables" (.list []))
  -- filtered_context as the transform branch observes it (for other step
  -- kinds it only feeds the prompt text)
  let filteredContext : PyDict :=
    (if !inputVariables.isEmpty then
      inputVariables.foldl (fun acc v =>
        match pyLookup ctx.vars v with
        | some value => pySet acc v value
        | Option.none => acc) []
    else [])
    ++ [("agent_name", .str agentName), ("agent_id", .str agentId)]
  let fallbackVar :=
    getStrD (pyGetD config "output_variable_name"
      (.str ("step_" ++ toString stepIndex ++ "_result")))
      ("step_" ++ toString stepIndex ++ "_result")
  let llmPart : PyDict × Ctx :=
    match llmResult with
    | .error e =>
      let msg := "Error during LLM interaction for step execution: " ++ e
      ([("step_" ++ toString stepIndex ++ "_error", .str msg)],
       ctxSet ctx ("step_" ++ toString stepIndex ++ "_error") (.str msg))
    | .ok resp =>
      match strFind resp '\x7b', strRFind resp '\x7d' with
      | some jsonStart, some rbrace =>
        if rbrace + 1 > jsonStart then
          let jsonStr := pySlice resp jsonStart (rbrace + 1)
          match jsonParse jsonStr with
          | some nodeOutputs => (pyUpdate [] nodeOutputs, ctx)
          | Option.none => ([(fallbackVar, .str resp)], ctx)
        else ([(fallbackVar, .str resp)], ctx)
      | _, _ => ([(fallbackVar, .str resp)], ctx)
  if stepType == "transform" then
    match pyGetD config "transformation" (.str "json_stringify") with
    | .str transformationRaw =>
      let transformation := transformationRaw.toLower
      let outputVar :=
        getStrD (pyGetD config "output_variable"
          (.str ("step_" ++ toString stepIndex ++ "_result")))
          ("step_" ++ toString stepIndex ++ "_result")
      let inputValues := inputVariables.map (fun v => pyGetD filteredContext v PyVal.none)
      if transformation == "json_stringify" && !inputValues.isEmpty then
        ([(outputVar, .str (pyJsonDumps (inputValues.headD PyVal.none)))], ctx)
      else llmPart
    | _ => llmPart
  else llmPart

/-- `_execute_step_with_llm(step, step_index, config, ...)`: the input and
decision early returns, falling through to `llmStepTail`.  Returns the
step outputs and the (possibly mutated) context. -/
def executeStepWithLLM (jsonParse : String → Option PyDict)
    (llmResult : Except String String) (agentName agentId : String)
    (stepType : String) (stepIndex : Nat) (config : PyDict) (ctx : Ctx) :
    PyDict × Ctx :=
  let tail := llmStepTail jsonParse llmResult agentName agentId stepType stepIndex config ctx
  let decisionPart : PyDict × Ctx :=
    if stepType == "decision" then
      match pyGetD config "condition" (.str "not_empty:step_result") with
      | .str condition =>
        match pySplitColon condition with
        | [conditionType, variableName] =>
          if conditionType == "not_empty" then
            match ctxGet ctx variableName with
            | .none => tail
            | variableValue =>
              let conditionResult := !(pyIsEmptyCheck variableValue)
              let explanation :=
                if conditionResult then
                  "The condition '" ++ condition ++ "' is TRUE because '"
                    ++ variableName ++ "' is not empty"
                else
                  "The condition '" ++ condition ++ "' is FALSE because '"
                    ++ variableName ++ "' is empty"
              ([("step_" ++ toString stepIndex ++ "_condition_result", .bool conditionResult),
                ("step_" ++ toString stepIndex ++ "_explanation", .str explanation)], ctx)
          else tail
        | _ => tail
      | _ => tail  -- non-string condition: `split` raises, caught, falls to the LLM
    else tail
  if stepType == "input" then
    let dfltName := "step_" ++ toString stepIndex ++ "_input"
    let varName := getStrD (pyGetD config "variable_name" (.str dfltName)) dfltName
    let defaultValue := pyGetD config "default_value" PyVal.none
    if pyIsNone (ctxGet ctx varName) && !(pyIsNone defaultValue) then
      ([(varName, defaultValue)], ctx)
    else decisionPart
  else decisionPart

/-! ### `execute_step` and `execute_workflow` -/

/-- A Python exception: message (`str(e)`) and class name (`type(e).__name__`). -/
structure PyExc where
  msg : String
  name : String

/-- `execute_step(step_index, ...)`, given the outcome of its `try` block
(the dispatched tool/LLM execution, which may raise): computes the
decision `continue` flag, tracks outputs into the context, and on an
exception records `step_<i>_error` and stops forward progress. -/
def executeStep (stepIndex : Nat) (stepName : String) (stepType : String)
    (currentStepNumber : Nat) (body : Ctx → Except PyExc (PyDict × Ctx)) (ctx : Ctx) :
    PyDict × Bool × Ctx :=
  match body ctx with
  | .ok (stepOutputs, ctx1) =>
    let shouldContinue :=
      if stepType == "decision" then
        pyTruthy (pyGetD stepOutputs
          ("step_" ++ toString stepIndex ++ "_condition_result") (.bool true))
      else true
    (stepOutputs, shouldContinue, trackStepOutput ctx1 stepIndex stepOutputs)
  | .error e =>
    let msg := "Error executing step " ++ toString stepIndex ++ " '" ++ stepName
      ++ "' (Step: " ++ toString currentStepNumber ++ "): " ++ e.msg
    let ctx1 := ctxSet ctx ("step_" ++ toString stepIndex ++ "_error") (.str msg)
    ([("step_" ++ toString stepIndex ++ "_error", .str msg),
      ("step_" ++ toString stepIndex ++ "_exception_type", .str e.name)],
     false, ctx1)

/-- State of `execute_workflow`'s while loop. -/
structure LoopState where
  ctx : Ctx
  stepIndex : Nat
  currentStep : Nat
  shouldContinue : Bool
  finalOutputs : PyDict

/-- The body of one iteration of the engine loop: execute the step at the
current index, collect output-step outputs (every modelled value is
JSON-serializable, so the serializability coercion is the identity), and
advance. -/
def stepOnce (steps : List WStep) (bodies : Nat → Ctx → Except PyExc (PyDict × Ctx))
    (s : LoopState) : LoopState :=
  let step := steps.getD s.stepIndex ⟨"", "", ""⟩
  let currentStep := s.currentStep + 1
  let r := executeStep s.stepIndex step.step step.type currentStep (bodies s.stepIndex) s.ctx
  let finalOutputs :=
    if step.type == "output" then pyUpdate s.finalOutputs r.1 else s.finalOutputs
  ⟨r.2.2, s.stepIndex + 1, currentStep, r.2.1, finalOutputs⟩

/-- One engine-loop iteration advances the step pointer by one. -/
theorem stepOnce_stepIndex (steps : List WStep) (bodies : Nat → Ctx → Except PyExc (PyDict × Ctx))
    (s : LoopState) : (stepOnce steps bodies s).stepIndex = s.stepIndex + 1 := rfl

/-- One engine-loop iteration increments the executed-step counter. -/
theorem stepOnce_currentStep (steps : List WStep) (bodies : Nat → Ctx → Except PyExc (PyDict × Ctx))
    (s : LoopState) : (stepOnce steps bodies s).currentStep = s.currentStep + 1 := rfl

/-- The continue flag after one iteration is what `execute_step` returned. -/
theorem stepOnce_shouldContinue (steps : List WStep)
    (bodies : Nat → Ctx → Except PyExc (PyDict × Ctx)) (s : LoopState) :
    (stepOnce steps bodies s).shouldContinue =
      (executeStep s.stepIndex (steps.getD s.stepIndex ⟨"", "", ""⟩).step
        (steps.getD s.stepIndex ⟨"", "", ""⟩).type (s.currentStep + 1)
        (bodies s.stepIndex) s.ctx).2.1 := rfl

/-- The engine loop
`while step_index < len(steps) and should_continue and current_step < MAX`:
the fuel is `MAX - current_step`, so exhausted fuel is exactly the
iteration-ceiling exit.  `bodies i` is the `try`-block outcome of step `i`
(tool dispatch or LLM execution, possibly raising). -/
def workflowLoop (steps : List WStep) (bodies : Nat → Ctx → Except PyExc (PyDict × Ctx)) :
    Nat → LoopState → LoopState
  | 0, s => s
  | Nat.succ fuel, s =>
    if s.stepIndex < steps.length ∧ s.shouldContinue then
      workflowLoop steps bodies fuel (stepOnce steps bodies s)
    else s

/-- Result of `execute_workflow`: the recorded final state, the collected
outputs, the context (holding `workflow_status_detail`), the number of
executed steps, and the error message if any. -/
structure RunResult where
  state : String
  finalOutputs : PyDict
  ctx : Ctx
  stepsExecuted : Nat
  errorMessage : Option String

/-- The `finally` block's defensive normalization: any state other than
`completed`/`failed` is forced to `failed`. -/
def finalizeRun (r : RunResult) : RunResult :=
  if r.state == "completed" || r.state == "failed" then r
  else
    { r with
      state := "failed"
      errorMessage := (match r.errorMessage with
        | some m => some m
        | Option.none => some "Workflow ended in an unexpected or ambiguous state.") }

/-- The context seeding of `execute_workflow`: the caller's initial
context, then the run metadata, then the user/objective entries. -/
def seedCtx (initialContext : PyDict)
    (executionId agentId agentName userId objective : String) : Ctx :=
  let ctx0 : Ctx := ⟨[], []⟩
  let ctx1 := ctxUpdate ctx0 initialContext
  let ctx2 := ctxUpdate ctx1
    [("execution_id", .str executionId), ("agent_id", .str agentId),
     ("agent_name", .str agentName)]
  ctxUpdate ctx2 [("user_id", .str userId), ("workflow_objective", .str objective)]

/-- `execute_workflow(initial_context)`: context seeding, the bounded
loop, the termination classification, and the guaranteed finalizer.
Database persistence and log writes are external fire-and-forget effects
with no bearing on the returned result. -/
def runWorkflow (steps : List WStep) (bodies : Nat → Ctx → Except PyExc (PyDict × Ctx))
    (maxSteps : Nat) (initialContext : PyDict)
    (executionId agentId agentName userId objective : String) : RunResult :=
  let ctx3 := seedCtx initialContext executionId agentId agentName userId objective
  if steps.isEmpty then
    -- `raise ValueError(...)` caught by the outer handler; run marked failed.
    finalizeRun
      { state := "failed", finalOutputs := [], ctx := ctx3, stepsExecuted := 0,
        errorMessage := some "No workflow steps defined for the agent." }
  else
    let fin := workflowLoop steps bodies maxSteps ⟨ctx3, 0, 0, true, []⟩
    if fin.currentStep ≥ maxSteps ∧ fin.stepIndex < steps.length then
      finalizeRun
        { state := "failed", finalOutputs := fin.finalOutputs,
          ctx := ctxSet fin.ctx "workflow_status_detail" (.str "terminated_max_steps"),
          stepsExecuted := fin.currentStep,
          errorMessage := some ("Reached maximum workflow steps ("
            ++ toString maxSteps ++ "). Terminating.") }
    else if !fin.shouldContinue then
      finalizeRun
        { state := "completed", finalOutputs := fin.finalOutputs,
          ctx := ctxSet fin.ctx "workflow_status_detail"
            (.str "completed_stopped_by_decision"),
          stepsExecuted := fin.currentStep, errorMessage := Option.none }
    else if fin.stepIndex ≥ steps.length then
      finalizeRun
        { state := "completed", finalOutputs := fin.finalOutputs,
          ctx := ctxSet fin.ctx "workflow_status_detail" (.str "completed_successfully"),
          stepsExecuted := fin.currentStep, errorMessage := Option.none }
    else
      finalizeRun
        { state := "completed", finalOutputs := fin.finalOutputs,
          ctx := ctxSet fin.ctx "workflow_status_detail" (.str "completed_successfully"),
          stepsExecuted := fin.currentStep, errorMessage := Option.none }

/-! ### LLM Tool-Calling Session (client.py `execute_llm_interaction`) -/

/-- A content block of a model reply or of a tool-result message.  A
tool-result message body is always a single text block in the source, so
it is carried inline here. -/
inductive CBlock where
  | text (s : String)
  | toolUse (id : String) (name : String) (input : PyVal)
  | toolResult (toolUseId : String) (body : String) (isError : Bool)

/-- Message content: the initial user message is plain text, later
messages carry block lists. -/
inductive MsgContent where
  | text (s : String)
  | blocks (bs : List CBlock)

/-- A conversation message. -/
structure PyMsg where
  role : String
  content : MsgContent

/-- Executing the recognized tool-invocation requests of one round
(`for tool_use_id, tool_name, tool_input_args in requested_mcp_tool_calls`):
threads `all_tool_outputs` and accumulates the tool-result blocks for the
next user message.  `callTool` abstracts `session.call_tool` composed with
`_safe_serialize` (an exception anywhere in that `try` body, including the
`ValueError` a content-cap refusal raises, lands in the error branch). -/
def processToolCalls (callTool : String → PyVal → Except String String)
    (countTokens : String → Nat) (chunkOut : Nat → String → ChunkOutcome)
    (maxToolResultTokens : Nat)
    (requested : List (String × String × PyVal)) (outs : List (String × PyVal)) :
    List (String × PyVal) × List CBlock :=
  requested.foldl
    (fun acc req =>
      let id := req.1
      let name := req.2.1
      let input := req.2.2
      let outKey := if id == "" then name else id
      match (do
        let serialized ← callTool name input
        let summarized ← summarizeLargeContent countTokens chunkOut
          (some serialized) maxToolResultTokens name
        pure (serialized, summarized) : Except String (String × String)) with
      | .ok r =>
        (pySet acc.1 outKey (.str r.1),
         acc.2 ++ [CBlock.toolResult id r.2 false])
      | .error e =>
        let errorDetail := "Error executing MCP tool " ++ name ++ ": " ++ e
        (pySet acc.1 outKey (.dict [("error", .str errorDetail)]),
         acc.2 ++ [CBlock.toolResult id errorDetail true]))
    (outs, [])

/-- The text blocks of a model reply, in order (each is appended to
`aggregated_text_responses`). -/
def textsOf (blocks : List CBlock) : List String :=
  blocks.filterMap (fun b => match b with | CBlock.text s => some s | _ => Option.none)

/-- The recognized tool-invocation requests of a model reply: `tool_use`
blocks whose name is in the cached catalog, in order.  A `tool_use`
naming an unknown tool is dropped (logged and ignored by the source). -/
def recognizedToolCalls (catalog : List String) (blocks : List CBlock) :
    List (String × String × PyVal) :=
  blocks.filterMap (fun b =>
    match b with
    | CBlock.toolUse id name input =>
      if catalog.contains name then some (id, name, input) else Option.none
    | _ => Option.none)

/-- What the session's turn loop hands to the code after the loop. -/
structure SessionOut where
  aggregated : List String
  toolOutputs : List (String × PyVal)
  lastTurn : Nat
  lastRequestedNonempty : Bool
  turnsUsed : Nat

/-- The `for turn in range(MAX_LLM_INTERACTION_TURNS)` loop.  The fuel is
the number of remaining turns; `turnIdx` is the current value of `turn`.
`prevReq` records whether the previous iteration's
`requested_mcp_tool_calls` was non-empty — after a `break` on a model-call
error Python still sees that stale binding.  `modelComplete` abstracts the
Anthropic call on the current message history; an error value is an
exception from that call. -/
def sessionLoop (modelComplete : List PyMsg → Except String (List CBlock))
    (catalog : List String) (callTool : String → PyVal → Except String String)
    (countTokens : String → Nat) (chunkOut : Nat → String → ChunkOutcome)
    (maxToolResultTokens : Nat) :
    Nat → Nat → List PyMsg → List String → List (String × PyVal) → Bool → SessionOut
  | 0, turnIdx, _msgs, agg, outs, prevReq =>
    -- loop exhausted: the last executed turn was `turnIdx - 1`
    ⟨agg, outs, turnIdx - 1, prevReq, turnIdx⟩
  | Nat.succ fuel, turnIdx, msgs, agg, outs, prevReq =>
    match modelComplete msgs with
    | .error e =>
      ⟨agg ++ ["Error calling Anthropic API: " ++ e], outs, turnIdx, prevReq, turnIdx + 1⟩
    | .ok blocks =>
      let msgs1 := msgs ++ [⟨"assistant", .blocks blocks⟩]
      let texts := textsOf blocks
      let agg1 := agg ++ texts
      let hasText := !texts.isEmpty
      let requested := recognizedToolCalls catalog blocks
      if requested.isEmpty then
        let agg2 :=
          if !hasText && agg1.isEmpty then
            agg1 ++ ["[LLM interaction ended without text output or MCP tool calls this turn.]"]
          else agg1
        ⟨agg2, outs, turnIdx, false, turnIdx + 1⟩
      else
        let pr := processToolCalls callTool countTokens chunkOut maxToolResultTokens
          requested outs
        if pr.2.isEmpty then
          -- defensive break in the source; unreachable since every request
          -- produces a result block
          ⟨agg1, pr.1, turnIdx, true, turnIdx + 1⟩
        else
          sessionLoop modelComplete catalog callTool countTokens chunkOut
            maxToolResultTokens fuel (turnIdx + 1)
            (msgs1 ++ [⟨"user", .blocks pr.2⟩]) agg1 pr.1 true

/-- Result of `execute_llm_interaction`: the aggregated text, the
per-request un-shrunk tool outputs, and the number of model calls made. -/
structure LLMInteractionResult where
  finalText : String
  toolOutputs : List (String × PyVal)
  turnsUsed : Nat

/-- `execute_llm_interaction(system_prompt, user_messages, ...)`: the turn
loop, the pending-tool-calls truncation notice, and the final text
assembly.  The system prompt and tool catalog feed only the external
model call, abstracted by `modelComplete`. -/
def executeLLMInteraction (modelComplete : List PyMsg → Except String (List CBlock))
    (catalog : List String) (callTool : String → PyVal → Except String String)
    (countTokens : String → Nat) (chunkOut : Nat → String → ChunkOutcome)
    (maxTurns maxToolResultTokens : Nat) (interactionId : String)
    (userMessages : List PyMsg) : LLMInteractionResult :=
  let r := sessionLoop modelComplete catalog callTool countTokens chunkOut
    maxToolResultTokens maxTurns 0 userMessages [] [] false
  let agg :=
    if r.lastTurn == maxTurns - 1 && r.lastRequestedNonempty then
      r.aggregated ++ ["[LLM interaction for " ++ interactionId
        ++ " reached max turns with pending tool calls.]"]
    else r.aggregated
  let finalText := pyStrip (String.intercalate "\n" agg)
  let finalText2 :=
    if finalText == "" && r.toolOutputs.isEmpty then
      "[LLM interaction produced no textual output and no tool outputs.]"
    else finalText
  ⟨finalText2, r.toolOutputs, r.turnsUsed⟩

/-! ## Theorems -/

/-! ### C9 -/

/-- C9: for every content value whose estimated size is at or below the
`maxTokens` budget, `_summarize_large_content` returns it unchanged —
identical to the input when the input is already text — for every
estimator and every chunk-summarizer behavior. -/
theorem bound_within_budget_returns_input (countTokens : String → Nat)
    (chunkOut : Nat → String → ChunkOutcome) (s : String) (maxTokens : Nat)
    (toolName : String) (h : countTokens s ≤ maxTokens) :
    summarizeLargeContent countTokens chunkOut (some s) maxTokens toolName =
      Except.ok s := by
  simp [summarizeLargeContent, h]

/-- Witness for C9 at a concrete input. -/
theorem bound_within_budget_returns_input_witness :
    countTokensFallback "hello" ≤ 50000 ∧
      summarizeLargeContent countTokensFallback (fun _ _ => ChunkOutcome.innerFail)
        (some "hello") 50000 "exa_search" = Except.ok "hello" :=
  ⟨by decide, bound_within_budget_returns_input countTokensFallback _ "hello" 50000
    "exa_search" (by decide)⟩

/-! ### C1 -/

/-- A 4,400,000-character text: 1,100,000 tokens under the source's own
fallback estimator `len(text) // 4`. -/
def bigContent : String := ⟨List.replicate 4400000 'a'⟩

/-- The length of a string built from a character list. -/
theorem strmk_length (l : List Char) : (String.mk l).length = l.length := rfl

/-- The fallback estimator, as an equation usable without unfolding at a
concrete (possibly huge) string. -/
theorem countTokensFallback_eq (s : String) : countTokensFallback s = s.length / 4 := rfl

/-- `bigContent` has 4,400,000 characters. -/
theorem bigContent_length : bigContent.length = 4400000 := by
  unfold bigContent
  rw [strmk_length, List.length_replicate]

/-- `bigContent` estimates to 1,100,000 tokens. -/
theorem bigContent_count : countTokensFallback bigContent = 1100000 := by
  rw [countTokensFallback_eq, bigContent_length]

/-- C1 is false as stated: content over the 1,000,000-token cap is
returned unchanged — with no `ContentTooLarge` failure — whenever the
`maxTokens` budget it is called with is at least its size, because the
within-budget check precedes the hard-cap check. -/
theorem bound_over_cap_large_budget_no_error :
    1000000 < countTokensFallback bigContent ∧
      summarizeLargeContent countTokensFallback (fun _ _ => ChunkOutcome.innerFail)
        (some bigContent) 2000000 "exa_search" = Except.ok bigContent := by
  refine ⟨by rw [bigContent_count]; norm_num, ?_⟩
  simp only [summarizeLargeContent]
  rw [bigContent_count]
  norm_num

/-- C1 amended: for every content value whose estimated size exceeds
1,000,000 tokens **and exceeds the `maxTokens` budget**, the bound
operation fails with the `ContentTooLarge` error and performs no chunking
or summarization (the result does not depend on the chunk summarizer).
Since every budget the program passes is at most 1,000,000, this covers
every call the program makes. -/
theorem bound_over_cap_and_budget_refuses (countTokens : String → Nat)
    (chunkOut chunkOut2 : Nat → String → ChunkOutcome) (s : String)
    (maxTokens : Nat) (toolName : String)
    (hcap : 1000000 < countTokens s) (hbudget : maxTokens < countTokens s) :
    summarizeLargeContent countTokens chunkOut (some s) maxTokens toolName =
      Except.error ("Content from " ++ toolName
        ++ " exceeds maximum limit of 1,000,000 tokens ("
        ++ toString (countTokens s) ++ " tokens). Cannot process.") ∧
    summarizeLargeContent countTokens chunkOut (some s) maxTokens toolName =
      summarizeLargeContent countTokens chunkOut2 (some s) maxTokens toolName := by
  have h1 : ¬ countTokens s ≤ maxTokens := by omega
  constructor
  · simp [summarizeLargeContent, h1, hcap]
  · simp [summarizeLargeContent, h1, hcap]

/-- Witness for the amended C1 at a concrete input. -/
theorem bound_over_cap_and_budget_refuses_witness :
    (1000000 < countTokensFallback bigContent ∧ 50000 < countTokensFallback bigContent) ∧
      summarizeLargeContent countTokensFallback (fun _ _ => ChunkOutcome.innerFail)
        (some bigContent) 50000 "exa_search" =
        Except.error ("Content from exa_search exceeds maximum limit of 1,000,000 tokens ("
          ++ toString (countTokensFallback bigContent) ++ " tokens). Cannot process.") := by
  have hcap : 1000000 < countTokensFallback bigContent := by rw [bigContent_count]; norm_num
  have hb : 50000 < countTokensFallback bigContent := by rw [bigContent_count]; norm_num
  exact ⟨⟨hcap, hb⟩,
    (bound_over_cap_and_budget_refuses countTokensFallback
      (fun _ _ => ChunkOutcome.innerFail) (fun _ _ => ChunkOutcome.innerFail)
      bigContent 50000 "exa_search" hcap hb).1⟩

/-! ### C4 -/

/-- The shrink loop is the identity when the text already estimates
within the target. -/
theorem truncateLoop_of_within_target (countTokens : String → Nat) (target : Int)
    (fuel : Nat) (t : String) (h : ¬ (countTokens t : Int) > target) :
    truncateLoop countTokens target fuel t = t := by
  cases fuel with
  | zero => rfl
  | succ f => simp [truncateLoop, h]

/-- `pyInt` of a natural number is that number. -/
theorem pyInt_natCast (n : ℕ) : pyInt ((n : ℚ)) = (n : Int) := by
  simp [pyInt]

/-- Core of the amended C4: when the text estimates within the reduced
target and the computed character estimate covers the whole text, the
fallback truncation keeps the text whole and appends the notice. -/
theorem truncateFallback_bounded_eq (countTokens : String → Nat) (text : String)
    (maxTokens originalTokens : Nat) (toolName : String)
    (htok : (countTokens text : Int) ≤ truncTarget countTokens maxTokens originalTokens toolName)
    (hcov : (text.length : Int) ≤
      truncEstimatedChars countTokens text maxTokens originalTokens toolName) :
    truncateContentFallback countTokens text maxTokens toolName originalTokens =
      text ++ truncationNotice maxTokens toolName originalTokens := by
  have h0 : (0 : Int) ≤ truncEstimatedChars countTokens text maxTokens originalTokens toolName :=
    le_trans (Int.ofNat_nonneg _) hcov
  have hslice : pySliceTo text
      (truncEstimatedChars countTokens text maxTokens originalTokens toolName) = text := by
    unfold pySliceTo
    rw [if_pos h0]
    have hlen : text.data.length ≤
        (truncEstimatedChars countTokens text maxTokens originalTokens toolName).toNat := by
      have : text.data.length = text.length := rfl
      omega
    rw [List.take_of_length_le hlen]
  simp only [truncateContentFallback]
  rw [hslice, truncateLoop_of_within_target _ _ _ _ (by omega)]

/-- The notice for budget 100, tool `t`, one original token estimates to
18 tokens. -/
theorem c4_notice_count : countTokensFallback (truncationNotice 100 "t" 1) = 18 := by decide

/-- Concrete bound feeding the C4 instance: `"abcd"` is within the
reduced target. -/
theorem c4_target_le : (countTokensFallback "abcd" : Int) ≤
    truncTarget countTokensFallback 100 1 "t" := by
  have habcd : countTokensFallback "abcd" = 1 := by decide
  unfold truncTarget
  rw [c4_notice_count, habcd]
  norm_num

/-- Concrete bound feeding the C4 instance: the estimated character
offset covers all of `"abcd"`. -/
theorem c4_cov_le : (("abcd" : String).length : Int) ≤
    truncEstimatedChars countTokensFallback "abcd" 100 1 "t" := by
  have hlen : ("abcd" : String).length = 4 := rfl
  unfold truncEstimatedChars truncCharsPerToken truncTarget
  rw [c4_notice_count, hlen]
  rw [show (((((100 : ℕ) : Int) - ((18 : ℕ) : Int) : Int) : ℚ)
      * (if (1 : ℕ) > 0 then ((4 : ℕ) : ℚ) / ((1 : ℕ) : ℚ) else 4)) = ((328 : ℕ) : ℚ)
    from by norm_num]
  rw [pyInt_natCast]
  norm_num

/-- C4 is false as stated: `_truncate_content_fallback` applied to text
already within the token budget does not return the same text — it
unconditionally appends the truncation notice. -/
theorem truncate_on_bounded_text_not_identity :
    countTokensFallback "abcd" ≤ 100 ∧
      truncateContentFallback countTokensFallback "abcd" 100 "t"
        (countTokensFallback "abcd") ≠ "abcd" := by
  have habcd : countTokensFallback "abcd" = 1 := by decide
  constructor
  · decide
  · rw [habcd, truncateFallback_bounded_eq countTokensFallback "abcd" 100 1 "t"
      c4_target_le c4_cov_le]
    decide

/-- C4 amended: the fallback truncation is not literally idempotent —
every application appends a truncation notice.  What holds is that
already-bounded text survives in full: when the text estimates within the
reduced target and the computed character estimate covers the whole text,
the result is exactly the original text followed by the truncation
notice. -/
theorem truncate_bounded_appends_notice (countTokens : String → Nat) (text : String)
    (maxTokens originalTokens : Nat) (toolName : String)
    (htok : (countTokens text : Int) ≤ truncTarget countTokens maxTokens originalTokens toolName)
    (hcov : (text.length : Int) ≤
      truncEstimatedChars countTokens text maxTokens originalTokens toolName) :
    truncateContentFallback countTokens text maxTokens toolName originalTokens =
      text ++ truncationNotice maxTokens toolName originalTokens :=
  truncateFallback_bounded_eq countTokens text maxTokens originalTokens toolName htok hcov

/-- Witness for the amended C4 at a concrete input. -/
theorem truncate_bounded_appends_notice_witness :
    ((countTokensFallback "abcd" : Int) ≤ truncTarget countTokensFallback 100 1 "t" ∧
      (("abcd" : String).length : Int) ≤
        truncEstimatedChars countTokensFallback "abcd" 100 1 "t") ∧
      truncateContentFallback countTokensFallback "abcd" 100 "t" 1 =
        "abcd" ++ truncationNotice 100 "t" 1 :=
  ⟨⟨c4_target_le, c4_cov_le⟩,
    truncate_bounded_appends_notice countTokensFallback "abcd" 100 1 "t"
      c4_target_le c4_cov_le⟩

/-! ### C8 -/

/-- C8: in the chunked-summarization regime (content over budget, under
the 1,000,000-token cap, combined summary fitting the budget), the bound
operation returns the combined summary — it does not fail — and the
combined summary is assembled chunk by chunk: a chunk whose task
succeeded contributes its (stripped) summary, a chunk whose task failed
contributes only the explicit placeholder naming that chunk, whether the
failure was caught inside the task or surfaced to `gather`. -/
theorem chunk_failures_partial_success (countTokens : String → Nat)
    (chunkOut : Nat → String → ChunkOutcome) (text : String) (maxTokens : Nat)
    (toolName : String)
    (hover : maxTokens < countTokens text) (hcap : countTokens text ≤ 1000000)
    (hfit : countTokens (combinedSummary countTokens chunkOut text toolName) ≤ maxTokens) :
    summarizeLargeContent countTokens chunkOut (some text) maxTokens toolName =
      Except.ok (combinedSummary countTokens chunkOut text toolName) ∧
    (combinedChunkSummaries chunkOut (boundedChunks countTokens text)).length =
      (boundedChunks countTokens text).length ∧
    ∀ i (h : i < (boundedChunks countTokens text).length),
      ((∀ s, chunkOut i ((boundedChunks countTokens text).get ⟨i, h⟩) =
          ChunkOutcome.success s →
        (combinedChunkSummaries chunkOut (boundedChunks countTokens text)).getD i "" =
          pyStrip s) ∧
      (chunkOut i ((boundedChunks countTokens text).get ⟨i, h⟩) = ChunkOutcome.innerFail →
        (combinedChunkSummaries chunkOut (boundedChunks countTokens text)).getD i "" =
          innerFailNotice i) ∧
      (chunkOut i ((boundedChunks countTokens text).get ⟨i, h⟩) = ChunkOutcome.outerFail →
        (combinedChunkSummaries chunkOut (boundedChunks countTokens text)).getD i "" =
          outerFailNotice i)) := by
  have h1 : ¬ countTokens text ≤ maxTokens := by omega
  have h3 : ¬ countTokens (combinedSummary countTokens chunkOut text toolName) > maxTokens := by
    omega
  refine ⟨?_, ?_, ?_⟩
  · simp only [summarizeLargeContent]
    rw [if_neg h1, if_neg (by omega)]
    rw [if_neg h3]
  · simp [combinedChunkSummaries]
  · intro i h
    have hli : i < (combinedChunkSummaries chunkOut (boundedChunks countTokens text)).length := by
      simpa [combinedChunkSummaries] using h
    have hmain : (combinedChunkSummaries chunkOut (boundedChunks countTokens text)).getD i "" =
        (match gatherChunkResult chunkOut i ((boundedChunks countTokens text).get ⟨i, h⟩) with
          | .ok s => s
          | .error _ => outerFailNotice i) := by
      rw [List.getD_eq_getElem _ _ hli]
      unfold combinedChunkSummaries
      rw [List.getElem_map]
      rw [List.getElem_enum _ _ (by simpa using h)]
      simp
    refine ⟨?_, ?_, ?_⟩
    · intro s hs
      rw [hmain]
      simp only [List.get_eq_getElem] at hs
      simp [gatherChunkResult, hs]
    · intro hs
      rw [hmain]
      simp only [List.get_eq_getElem] at hs
      simp [gatherChunkResult, hs]
    · intro hs
      rw [hmain]
      simp only [List.get_eq_getElem] at hs
      simp [gatherChunkResult, hs]

/-- Concrete estimator for the C8 witness: the six-character input
estimates over the 5-token budget, everything else (the chunk and the
combined summary) to one token. -/
def c8CountTokens : String → Nat := fun s => if s == "abcdef" then 10 else 1

/-- Concrete chunk outcome for the C8 witness: every chunk task fails
inside `summarize_chunk`. -/
def c8ChunkOut : Nat → String → ChunkOutcome := fun _ _ => ChunkOutcome.innerFail

/-- Witness for C8 at a concrete input: the single failed chunk is
replaced by its placeholder and the call still succeeds. -/
theorem chunk_failures_partial_success_witness :
    (5 < c8CountTokens "abcdef" ∧ c8CountTokens "abcdef" ≤ 1000000 ∧
      c8CountTokens (combinedSummary c8CountTokens c8ChunkOut "abcdef" "g") ≤ 5) ∧
    (combinedChunkSummaries c8ChunkOut (boundedChunks c8CountTokens "abcdef")).getD 0 "" =
      innerFailNotice 0 := by
  have h1 : 5 < c8CountTokens "abcdef" := by decide
  have h2 : c8CountTokens "abcdef" ≤ 1000000 := by decide
  have h3 : c8CountTokens (combinedSummary c8CountTokens c8ChunkOut "abcdef" "g") ≤ 5 := by
    decide
  have h0 : 0 < (boundedChunks c8CountTokens "abcdef").length := by decide
  exact ⟨⟨h1, h2, h3⟩,
    ((chunk_failures_partial_success c8CountTokens c8ChunkOut "abcdef" 5 "g"
      h1 h2 h3).2.2 0 h0).2.1 rfl⟩

/-! ### C10 -/

/-- Text blocks map to themselves under text extraction. -/
theorem textsOf_map_text : ∀ ts : List String, textsOf (ts.map CBlock.text) = ts
  | [] => rfl
  | a :: as => by
    have h : textsOf ((a :: as).map CBlock.text) = a :: textsOf (as.map CBlock.text) := rfl
    rw [h, textsOf_map_text as]

/-- A reply of only text blocks requests no tool calls. -/
theorem recognizedToolCalls_map_text (catalog : List String) :
    ∀ ts : List String, recognizedToolCalls catalog (ts.map CBlock.text) = []
  | [] => rfl
  | a :: as => by
    have h : recognizedToolCalls catalog ((a :: as).map CBlock.text) =
        recognizedToolCalls catalog (as.map CBlock.text) := rfl
    rw [h, recognizedToolCalls_map_text catalog as]

/-- C10: a round whose model reply contains no recognized tool-invocation
request (no `tool_use` block naming a catalog tool) ends the session after
that round, for every remaining turn budget — the loop makes exactly one
more model call.  In particular, when the model's reply to the initial
messages consists only of text blocks, the session ends after exactly one
turn with that text (joined and stripped) as the aggregated result and no
tool outputs. -/
theorem no_tool_use_ends_session
    (modelComplete : List PyMsg → Except String (List CBlock))
    (catalog : List String) (callTool : String → PyVal → Except String String)
    (countTokens : String → Nat) (chunkOut : Nat → String → ChunkOutcome)
    (maxToolResultTokens : Nat) :
    (∀ fuel turnIdx msgs agg outs prevReq blocks,
      modelComplete msgs = Except.ok blocks →
      (∀ b ∈ blocks, ∀ id name input, b = CBlock.toolUse id name input →
        catalog.contains name = false) →
      (sessionLoop modelComplete catalog callTool countTokens chunkOut
        maxToolResultTokens (fuel + 1) turnIdx msgs agg outs prevReq).turnsUsed =
        turnIdx + 1) ∧
    (∀ maxTurns interactionId userMsgs texts,
      1 ≤ maxTurns →
      modelComplete userMsgs = Except.ok (texts.map CBlock.text) →
      texts ≠ [] →
      pyStrip (String.intercalate "\n" texts) ≠ "" →
      executeLLMInteraction modelComplete catalog callTool countTokens chunkOut
        maxTurns maxToolResultTokens interactionId userMsgs =
        ⟨pyStrip (String.intercalate "\n" texts), [], 1⟩) := by
  constructor
  · intro fuel turnIdx msgs agg outs prevReq blocks hm hnone
    have hreq : recognizedToolCalls catalog blocks = [] := by
      unfold recognizedToolCalls
      rw [List.filterMap_eq_nil_iff]
      intro b hb
      match b with
      | CBlock.text s => rfl
      | CBlock.toolUse id name input =>
        simpa using hnone (CBlock.toolUse id name input) hb id name input rfl
      | CBlock.toolResult a c d => rfl
    simp only [sessionLoop, hm]
    rw [hreq]
    simp
  · intro maxTurns interactionId userMsgs texts h1 hm hne htrim
    obtain ⟨f, rfl⟩ : ∃ f, maxTurns = f + 1 := ⟨maxTurns - 1, by omega⟩
    have hie : texts.isEmpty = false := by
      cases texts with
      | nil => exact absurd rfl hne
      | cons a as => rfl
    unfold executeLLMInteraction
    simp only [sessionLoop, hm]
    rw [recognizedToolCalls_map_text, textsOf_map_text]
    simp [hie, htrim]

/-- The model stub of the C10 witness: one text block, no tool use. -/
def c10Model : List PyMsg → Except String (List CBlock) :=
  fun _ => Except.ok [CBlock.text "hello"]

/-- Witness for C10 at a concrete model stub returning one text block on
turn 1. -/
theorem no_tool_use_ends_session_witness :
    ((1 : Nat) ≤ 5 ∧
      c10Model [⟨"user", MsgContent.text "hi"⟩] =
        Except.ok (((["hello"] : List String)).map CBlock.text) ∧
      (["hello"] : List String) ≠ [] ∧
      pyStrip (String.intercalate "\n" ["hello"]) ≠ "") ∧
    executeLLMInteraction c10Model []
      (fun _ _ => Except.error "unavailable") countTokensFallback
      (fun _ _ => ChunkOutcome.innerFail) 5 50000 "t"
      [⟨"user", MsgContent.text "hi"⟩] =
      ⟨pyStrip (String.intercalate "\n" ["hello"]), [], 1⟩ := by
  refine ⟨⟨by norm_num, rfl, by simp, by decide⟩, ?_⟩
  exact (no_tool_use_ends_session c10Model []
    (fun _ _ => Except.error "unavailable") countTokensFallback
    (fun _ _ => ChunkOutcome.innerFail) 50000).2 5 "t"
    [⟨"user", MsgContent.text "hi"⟩] ["hello"] (by norm_num) rfl (by simp) (by decide)

/-! ### Dictionary lemmas -/

/-- Replacing the bound entry is what `pyFind` then sees. -/
theorem pyFind_map_replace (d : PyDict) (k : String) (v : PyVal) :
    pyFind k (d.map (fun p => if p.1 == k then (k, v) else p)) =
      if (pyFind k d).isSome then some (k, v) else Option.none := by
  induction d with
  | nil => rfl
  | cons p rest ih =>
    rw [List.map_cons, pyFind, pyFind]
    by_cases h : (p.1 == k) = true
    · rw [if_pos h, if_pos h]
      rw [if_pos (show (((k, v) : String × PyVal).1 == k) = true by simp)]
      rfl
    · rw [if_neg h, if_neg h, ih, if_neg h]

/-- `pyFind` over an append looks left first. -/
theorem pyFind_append (k : String) (d1 d2 : PyDict) :
    pyFind k (d1 ++ d2) =
      match pyFind k d1 with
      | Option.none => pyFind k d2
      | some p => some p := by
  induction d1 with
  | nil => rfl
  | cons p rest ih =>
    rw [List.cons_append, pyFind, pyFind]
    by_cases h : (p.1 == k) = true
    · rw [if_pos h, if_pos h]
    · rw [if_neg h, if_neg h, ih]

/-- Assignment then lookup of the same key yields the assigned value. -/
theorem pyLookup_pySet_self (d : PyDict) (k : String) (v : PyVal) :
    pyLookup (pySet d k v) k = some v := by
  unfold pySet pyLookup
  by_cases h : (pyFind k d).isSome
  · rw [if_pos h, pyFind_map_replace, if_pos h]
  · rw [if_neg h]
    have hn : pyFind k d = Option.none := by
      cases hx : pyFind k d with
      | none => rfl
      | some p => rw [hx] at h; simp at h
    rw [pyFind_append, hn]
    rw [pyFind, if_pos (show (((k, v) : String × PyVal).1 == k) = true by simp)]

/-- Assignment leaves lookups of other keys unchanged. -/
theorem pyLookup_pySet_ne (d : PyDict) (k k2 : String) (v : PyVal) (hne : (k2 == k) = false) :
    pyLookup (pySet d k v) k2 = pyLookup d k2 := by
  have hkk2 : (k == k2) = false := by
    rw [beq_eq_false_iff_ne] at hne ⊢
    exact Ne.symm hne
  unfold pySet pyLookup
  by_cases h : (pyFind k d).isSome
  · rw [if_pos h]
    have hmap : ∀ dd : PyDict,
        pyFind k2 (dd.map (fun p => if p.1 == k then (k, v) else p)) = pyFind k2 dd := by
      intro dd
      induction dd with
      | nil => rfl
      | cons p rest ih =>
        rw [List.map_cons, pyFind, pyFind]
        by_cases hp : (p.1 == k) = true
        · have hpk : p.1 = k := by simpa using hp
          rw [if_pos hp]
          rw [show (((k, v) : String × PyVal).1 == k2) = false from hkk2,
            show (p.1 == k2) = false from hpk ▸ hkk2]
          rw [if_neg (by simp), if_neg (by simp), ih]
        · rw [if_neg hp, ih]
    rw [hmap]
  · rw [if_neg h]
    rw [pyFind_append]
    have hone : pyFind k2 [(k, v)] = Option.none := by
      rw [pyFind, show (((k, v) : String × PyVal).1 == k2) = false from hkk2]
      rw [if_neg (by simp)]
      rfl
    rw [hone]
    cases pyFind k2 d <;> rfl

/-- `ctxGet` after `ctxSet` of the same key. -/
theorem ctxGet_ctxSet_self (c : Ctx) (k : String) (v : PyVal) :
    ctxGet (ctxSet c k v) k = v := by
  unfold ctxGet ctxSet pyGetD
  rw [pyLookup_pySet_self]

/-- `ctxGet` after `ctxSet` of a different key. -/
theorem ctxGet_ctxSet_ne (c : Ctx) (k k2 : String) (v : PyVal) (hne : (k2 == k) = false) :
    ctxGet (ctxSet c k v) k2 = ctxGet c k2 := by
  unfold ctxGet ctxSet pyGetD
  rw [pyLookup_pySet_ne _ _ _ _ hne]

/-! ### C7 -/

/-- Loop invariant for C7: while every executed step returns
`continue = true` and the step list is long enough, each unit of fuel
(= each permitted iteration) executes exactly one step. -/
theorem workflowLoop_all_continue (steps : List WStep)
    (bodies : Nat → Ctx → Except PyExc (PyDict × Ctx))
    (hcont : ∀ i num ctx, (executeStep i (steps.getD i ⟨"", "", ""⟩).step
      (steps.getD i ⟨"", "", ""⟩).type num (bodies i) ctx).2.1 = true) :
    ∀ fuel s, s.shouldContinue = true → s.stepIndex + fuel ≤ steps.length →
      (workflowLoop steps bodies fuel s).stepIndex = s.stepIndex + fuel ∧
      (workflowLoop steps bodies fuel s).currentStep = s.currentStep + fuel ∧
      (workflowLoop steps bodies fuel s).shouldContinue = true := by
  intro fuel
  induction fuel with
  | zero =>
    intro s hs _
    exact ⟨rfl, rfl, hs⟩
  | succ f ih =>
    intro s hs hle
    have hidx : s.stepIndex < steps.length := by omega
    have hrw : workflowLoop steps bodies (f + 1) s =
        workflowLoop steps bodies f (stepOnce steps bodies s) := by
      rw [workflowLoop, if_pos ⟨hidx, hs⟩]
    obtain ⟨h1, h2, h3⟩ := ih (stepOnce steps bodies s)
      (by rw [stepOnce_shouldContinue]; exact hcont s.stepIndex (s.currentStep + 1) s.ctx)
      (by rw [stepOnce_stepIndex]; omega)
    refine ⟨?_, ?_, ?_⟩
    · rw [hrw, h1, stepOnce_stepIndex]
      omega
    · rw [hrw, h2, stepOnce_currentStep]
      omega
    · rw [hrw]
      exact h3

/-- C7: a workflow longer than the iteration ceiling in which no executed
step sets `continue` to false ends in state `failed` with status detail
`terminated_max_steps`, having executed exactly `maxSteps` steps. -/
theorem engine_ceiling_terminates_failed (steps : List WStep)
    (bodies : Nat → Ctx → Except PyExc (PyDict × Ctx)) (maxSteps : Nat)
    (initialContext : PyDict) (executionId agentId agentName userId objective : String)
    (hlen : maxSteps < steps.length)
    (hcont : ∀ i num ctx, (executeStep i (steps.getD i ⟨"", "", ""⟩).step
      (steps.getD i ⟨"", "", ""⟩).type num (bodies i) ctx).2.1 = true) :
    (runWorkflow steps bodies maxSteps initialContext executionId agentId agentName
      userId objective).state = "failed" ∧
    ctxGet (runWorkflow steps bodies maxSteps initialContext executionId agentId agentName
      userId objective).ctx "workflow_status_detail" = PyVal.str "terminated_max_steps" ∧
    (runWorkflow steps bodies maxSteps initialContext executionId agentId agentName
      userId objective).stepsExecuted = maxSteps := by
  have hemp : ¬ steps.isEmpty = true := by
    cases steps with
    | nil => simp at hlen
    | cons a as => simp
  obtain ⟨h1, h2, h3⟩ := workflowLoop_all_continue steps bodies hcont maxSteps
    ⟨seedCtx initialContext executionId agentId agentName userId objective, 0, 0, true, []⟩
    rfl (by show 0 + maxSteps ≤ steps.length; omega)
  simp only [runWorkflow]
  rw [if_neg hemp]
  rw [if_pos ⟨by rw [h2]; show 0 + maxSteps ≥ maxSteps; omega,
    by rw [h1]; show 0 + maxSteps < steps.length; omega⟩]
  refine ⟨rfl, ?_, ?_⟩
  · exact ctxGet_ctxSet_self _ _ _
  · show (workflowLoop steps bodies maxSteps
      ⟨seedCtx initialContext executionId agentId agentName userId objective,
        0, 0, true, []⟩).currentStep = maxSteps
    rw [h2]
    show 0 + maxSteps = maxSteps
    omega

/-- The 25 no-op `process` steps of the C7 witness. -/
def c7Steps : List WStep := List.replicate 25 ⟨"s", "d", "process"⟩

/-- The step bodies of the C7 witness: no outputs, no exception. -/
def c7Bodies : Nat → Ctx → Except PyExc (PyDict × Ctx) := fun _ ctx => Except.ok ([], ctx)

/-- Witness for C7 at a concrete 25-step workflow with ceiling 20. -/
theorem engine_ceiling_terminates_failed_witness :
    (20 < c7Steps.length ∧
      ∀ i num ctx, (executeStep i (c7Steps.getD i ⟨"", "", ""⟩).step
        (c7Steps.getD i ⟨"", "", ""⟩).type num (c7Bodies i) ctx).2.1 = true) ∧
    (runWorkflow c7Steps c7Bodies 20 [] "e" "a" "n" "u" "o").state = "failed" ∧
    (runWorkflow c7Steps c7Bodies 20 [] "e" "a" "n" "u" "o").stepsExecuted = 20 := by
  have hlen : 20 < c7Steps.length := by decide
  have hcont : ∀ i num ctx, (executeStep i (c7Steps.getD i ⟨"", "", ""⟩).step
      (c7Steps.getD i ⟨"", "", ""⟩).type num (c7Bodies i) ctx).2.1 = true := by
    intro i num ctx
    show (if ((c7Steps.getD i ⟨"", "", ""⟩).type == "decision") = true
      then pyTruthy (pyGetD [] ("step_" ++ toString i ++ "_condition_result")
        (PyVal.bool true)) else true) = true
    split
    · rfl
    · rfl
  have h := engine_ceiling_terminates_failed c7Steps c7Bodies 20 [] "e" "a" "n" "u" "o"
    hlen hcont
  exact ⟨⟨hlen, hcont⟩, h.1, h.2.2⟩

/-- The finalizer leaves an already-terminal `completed` record alone. -/
theorem finalizeRun_of_completed (r : RunResult) (h : r.state = "completed") :
    finalizeRun r = r := by
  unfold finalizeRun
  rw [h]
  simp

/-! ### C2 -/

/-- The engine loop is the identity once its condition fails. -/
theorem workflowLoop_stop (steps : List WStep)
    (bodies : Nat → Ctx → Except PyExc (PyDict × Ctx)) (fuel : Nat) (s : LoopState)
    (h : ¬ (s.stepIndex < steps.length ∧ s.shouldContinue = true)) :
    workflowLoop steps bodies fuel s = s := by
  cases fuel with
  | zero => rfl
  | succ f => rw [workflowLoop, if_neg h]

/-- The single failing step of the C2 counterexample. -/
def c2Steps : List WStep := [⟨"Do work", "d", "process"⟩]

/-- Its body raises on every invocation. -/
def c2Bodies : Nat → Ctx → Except PyExc (PyDict × Ctx) :=
  fun _ _ => Except.error ⟨"boom", "RuntimeError"⟩

/-- The run of the C2 counterexample. -/
def c2Run : RunResult := runWorkflow c2Steps c2Bodies 20 [] "e" "a" "n" "u" "o"

/-- C2 is false as stated: a run whose only step raises ends in state
`completed`, not `failed` — the engine records the error and stops, but
classifies the `continue = false` exit as a decision-style early stop. -/
theorem step_error_run_completed_not_failed :
    c2Run.state = "completed" ∧ c2Run.state ≠ "failed" ∧
    ctxGet c2Run.ctx "step_0_error" =
      PyVal.str "Error executing step 0 'Do work' (Step: 1): boom" ∧
    ctxGet c2Run.ctx "workflow_status_detail" =
      PyVal.str "completed_stopped_by_decision" := by
  refine ⟨rfl, by decide, rfl, rfl⟩

/-- C2 amended: when a step's body raises, `execute_step` catches the
exception, writes the context entry `step_<ordinal>_error`, and returns
the outputs `step_<ordinal>_error` and `step_<ordinal>_exception_type`
with `continue = false`; the run still reaches its finalizer and ends in
a terminal state — but that state is `completed` (detail
`completed_stopped_by_decision`), not `failed`: the loop cannot
distinguish an error stop from a decision stop. -/
theorem step_exception_caught_completes (st : WStep) (e : PyExc) (maxSteps : Nat)
    (initialContext : PyDict) (executionId agentId agentName userId objective : String)
    (hms : 1 ≤ maxSteps) :
    (∀ i name ty num (ctx : Ctx) (e2 : PyExc),
      (executeStep i name ty num (fun _ => Except.error e2) ctx).1 =
        [("step_" ++ toString i ++ "_error",
          PyVal.str ("Error executing step " ++ toString i ++ " '" ++ name
            ++ "' (Step: " ++ toString num ++ "): " ++ e2.msg)),
         ("step_" ++ toString i ++ "_exception_type", PyVal.str e2.name)] ∧
      (executeStep i name ty num (fun _ => Except.error e2) ctx).2.1 = false ∧
      ctxGet (executeStep i name ty num (fun _ => Except.error e2) ctx).2.2
          ("step_" ++ toString i ++ "_error") =
        PyVal.str ("Error executing step " ++ toString i ++ " '" ++ name
          ++ "' (Step: " ++ toString num ++ "): " ++ e2.msg)) ∧
    ((runWorkflow [st] (fun _ => fun _ => Except.error e) maxSteps initialContext
        executionId agentId agentName userId objective).state = "completed" ∧
      ((runWorkflow [st] (fun _ => fun _ => Except.error e) maxSteps initialContext
        executionId agentId agentName userId objective).state = "completed" ∨
       (runWorkflow [st] (fun _ => fun _ => Except.error e) maxSteps initialContext
        executionId agentId agentName userId objective).state = "failed") ∧
      ctxGet (runWorkflow [st] (fun _ => fun _ => Except.error e) maxSteps initialContext
          executionId agentId agentName userId objective).ctx "step_0_error" =
        PyVal.str ("Error executing step " ++ toString 0 ++ " '" ++ st.step
          ++ "' (Step: " ++ toString 1 ++ "): " ++ e.msg) ∧
      ctxGet (runWorkflow [st] (fun _ => fun _ => Except.error e) maxSteps initialContext
          executionId agentId agentName userId objective).ctx "workflow_status_detail" =
        PyVal.str "completed_stopped_by_decision" ∧
      (runWorkflow [st] (fun _ => fun _ => Except.error e) maxSteps initialContext
        executionId agentId agentName userId objective).stepsExecuted = 1) := by
  constructor
  · intro i name ty num ctx e2
    exact ⟨rfl, rfl, ctxGet_ctxSet_self _ _ _⟩
  · obtain ⟨m, rfl⟩ : ∃ m, maxSteps = m + 1 := ⟨maxSteps - 1, by omega⟩
    simp only [runWorkflow]
    generalize seedCtx initialContext executionId agentId agentName userId objective = C
    have hloop : workflowLoop [st] (fun _ => fun _ => Except.error e) (m + 1)
        ⟨C, 0, 0, true, []⟩ =
        stepOnce [st] (fun _ => fun _ => Except.error e) ⟨C, 0, 0, true, []⟩ := by
      rw [workflowLoop, if_pos ⟨by simp, rfl⟩]
      exact workflowLoop_stop _ _ _ _ (by
        rw [stepOnce_stepIndex]
        simp)
    rw [if_neg (by simp)]
    rw [hloop]
    have hfalse : (stepOnce [st] (fun _ => fun _ => Except.error e)
        ⟨C, 0, 0, true, []⟩).shouldContinue = false := rfl
    rw [if_neg (by
      rw [stepOnce_stepIndex]
      simp)]
    rw [if_pos (by rw [hfalse]; rfl)]
    rw [finalizeRun_of_completed _ rfl]
    refine ⟨rfl, Or.inl rfl, ?_, ?_, rfl⟩
    · show ctxGet (ctxSet (stepOnce [st] (fun _ => fun _ => Except.error e)
        ⟨C, 0, 0, true, []⟩).ctx "workflow_status_detail"
        (PyVal.str "completed_stopped_by_decision")) "step_0_error" = _
      rw [ctxGet_ctxSet_ne _ _ _ _ (by decide)]
      rw [show (stepOnce [st] (fun _ => fun _ => Except.error e)
          ⟨C, 0, 0, true, []⟩).ctx =
        ctxSet C ("step_" ++ toString 0 ++ "_error")
          (PyVal.str ("Error executing step " ++ toString 0 ++ " '" ++ st.step
            ++ "' (Step: " ++ toString 1 ++ "): " ++ e.msg)) from rfl]
      exact ctxGet_ctxSet_self _ _ _
    · show ctxGet (ctxSet (stepOnce [st] (fun _ => fun _ => Except.error e)
        ⟨C, 0, 0, true, []⟩).ctx "workflow_status_detail"
        (PyVal.str "completed_stopped_by_decision")) "workflow_status_detail" = _
      exact ctxGet_ctxSet_self _ _ _

/-- Witness for the amended C2 at a concrete input. -/
theorem step_exception_caught_completes_witness :
    (1 : Nat) ≤ 20 ∧
    (runWorkflow [⟨"Do work", "d", "process"⟩]
      (fun _ => fun _ => Except.error ⟨"boom", "RuntimeError"⟩) 20 [] "e" "a" "n" "u"
      "o").state = "completed" ∧
    ctxGet (runWorkflow [⟨"Do work", "d", "process"⟩]
        (fun _ => fun _ => Except.error ⟨"boom", "RuntimeError"⟩) 20 [] "e" "a" "n" "u"
        "o").ctx "step_0_error" =
      PyVal.str ("Error executing step " ++ toString 0 ++ " '" ++ "Do work"
        ++ "' (Step: " ++ toString 1 ++ "): " ++ "boom") := by
  have h := step_exception_caught_completes ⟨"Do work", "d", "process"⟩
    ⟨"boom", "RuntimeError"⟩ 20 [] "e" "a" "n" "u" "o" (by norm_num)
  exact ⟨by norm_num, h.2.1, h.2.2.2.1⟩

/-! ### C5: the input step and already-bound variables -/

/-- Reading a variable just written by `track_step_output` of a
single-entry output dict yields that value. -/
theorem ctxGet_trackStepOutput_single (c : Ctx) (i : Nat) (k : String) (v : PyVal) :
    ctxGet (trackStepOutput c i [(k, v)]) k = v := by
  show pyGetD (pySet c.vars k v) k PyVal.none = v
  simp only [pyGetD, pyLookup_pySet_self]

/-- Unfolding `_execute_step_with_llm` on an input step whose default-value
guard holds: the early return writes the default under the variable name. -/
theorem executeStepWithLLM_input_default (jp : String → Option PyDict)
    (llm : Except String String) (aN aI : String) (i : Nat) (cfg : PyDict) (ctx : Ctx)
    (h : (pyIsNone (ctxGet ctx (getStrD (pyGetD cfg "variable_name"
            (.str ("step_" ++ toString i ++ "_input"))) ("step_" ++ toString i ++ "_input")))
          && !pyIsNone (pyGetD cfg "default_value" PyVal.none)) = true) :
    executeStepWithLLM jp llm aN aI "input" i cfg ctx =
      ([(getStrD (pyGetD cfg "variable_name" (.str ("step_" ++ toString i ++ "_input")))
          ("step_" ++ toString i ++ "_input"),
         pyGetD cfg "default_value" PyVal.none)], ctx) := by
  simp only [executeStepWithLLM]
  rw [if_pos (show (("input" : String) == "input") = true from rfl), if_pos h]

/-- An input step whose target variable is already bound: the config and
context of the counterexample. -/
def c5Cfg : PyDict := [("variable_name", PyVal.str "q"), ("default_value", PyVal.str "d")]

/-- Context already binding `q`. -/
def c5Ctx : Ctx := ⟨[("q", PyVal.str "old")], []⟩

/-- A model reply that is a JSON object rebinding `q`. -/
def c5Resp : String := "\x7b\"q\": \"new\"\x7d"

/-- `json.loads` on exactly that reply. -/
def c5JsonParse : String → Option PyDict :=
  fun s => if s == c5Resp then some [("q", PyVal.str "new")] else Option.none

/-- C5 counterexample: `q` is already bound to `"old"`, yet executing the
input step falls through to the LLM round trip, whose JSON output rebinds
`q` to `"new"` — the bound variable is not left untouched. -/
theorem input_step_rebinds_bound_variable :
    ctxGet c5Ctx "q" = PyVal.str "old" ∧
    ctxGet (executeStep 0 "Collect" "input" 1
      (fun c => Except.ok (executeStepWithLLM c5JsonParse (Except.ok c5Resp) "A" "a"
        "input" 0 c5Cfg c)) c5Ctx).2.2 "q" = PyVal.str "new" ∧
    PyVal.str "new" ≠ PyVal.str "old" := by
  refine ⟨rfl, rfl, ?_⟩
  intro hcontra
  injection hcontra with hs
  exact absurd hs (by decide)

/-- C5 (amended): when the target variable is *unbound* (reads as `None`)
and the configured default is not `None`, the step's outputs are exactly
the default under the variable name — independent of the model and parser
— and after `execute_step` the context binds the variable to the default.
(The bound-variable half of the claim fails: see the counterexample.) -/
theorem input_step_default_written (jp : String → Option PyDict)
    (llm : Except String String) (aN aI nm : String) (i cn : Nat) (cfg : PyDict) (ctx : Ctx)
    (varName : String) (dv : PyVal)
    (hvn : getStrD (pyGetD cfg "variable_name" (.str ("step_" ++ toString i ++ "_input")))
        ("step_" ++ toString i ++ "_input") = varName)
    (hdv : pyGetD cfg "default_value" PyVal.none = dv)
    (hunbound : pyIsNone (ctxGet ctx varName) = true)
    (hdef : pyIsNone dv = false) :
    executeStepWithLLM jp llm aN aI "input" i cfg ctx = ([(varName, dv)], ctx) ∧
    ctxGet (executeStep i nm "input" cn
      (fun c => Except.ok (executeStepWithLLM jp llm aN aI "input" i cfg c)) ctx).2.2
      varName = dv := by
  have h : (pyIsNone (ctxGet ctx (getStrD (pyGetD cfg "variable_name"
        (.str ("step_" ++ toString i ++ "_input"))) ("step_" ++ toString i ++ "_input")))
      && !pyIsNone (pyGetD cfg "default_value" PyVal.none)) = true := by
    rw [hvn, hdv, hunbound, hdef]
    rfl
  have h1 : executeStepWithLLM jp llm aN aI "input" i cfg ctx = ([(varName, dv)], ctx) := by
    rw [executeStepWithLLM_input_default jp llm aN aI i cfg ctx h, hvn, hdv]
  refine ⟨h1, ?_⟩
  simp only [executeStep, h1]
  exact ctxGet_trackStepOutput_single ctx i varName dv

/-- Witness config: unbound variable `v` with default `"d"`. -/
def c5wCfg : PyDict := [("variable_name", PyVal.str "v"), ("default_value", PyVal.str "d")]

/-- A parser stub for the C5 witness (never consulted). -/
def c5wJp : String → Option PyDict := fun _ => Option.none

/-- Witness for the amended C5 at a concrete input. -/
theorem input_step_default_written_witness :
    pyIsNone (ctxGet (⟨[], []⟩ : Ctx) "v") = true ∧
    pyIsNone (PyVal.str "d") = false ∧
    executeStepWithLLM c5wJp (Except.ok "") "A" "a" "input" 0 c5wCfg ⟨[], []⟩ =
      ([("v", PyVal.str "d")], (⟨[], []⟩ : Ctx)) ∧
    ctxGet (executeStep 0 "Ask" "input" 1
      (fun c => Except.ok (executeStepWithLLM c5wJp (Except.ok "") "A" "a" "input" 0
        c5wCfg c)) ⟨[], []⟩).2.2 "v" = PyVal.str "d" := by
  have h := input_step_default_written c5wJp (Except.ok "") "A" "a" "Ask" 0 1 c5wCfg
    ⟨[], []⟩ "v" (PyVal.str "d") rfl rfl rfl rfl
  exact ⟨rfl, rfl, h.1, h.2⟩

/-! ### C6: decision step direct evaluation -/

/-- A decision step configured with the condition `not_empty:x`. -/
def c6Cfg : PyDict := [("condition", PyVal.str "not_empty:x")]

/-- Direct evaluation of the `not_empty:x` decision: the result is a pure
function of the context's `x` (the model and parser are never consulted;
a `None` value falls through to the LLM path). -/
theorem c6_direct_eval (jp : String → Option PyDict) (llm : Except String String)
    (aN aI : String) (i : Nat) (ctx : Ctx) :
    executeStepWithLLM jp llm aN aI "decision" i c6Cfg ctx =
      (match ctxGet ctx "x" with
       | PyVal.none => llmStepTail jp llm aN aI "decision" i c6Cfg ctx
       | w' =>
         ([("step_" ++ toString i ++ "_condition_result", PyVal.bool (!pyIsEmptyCheck w')),
           ("step_" ++ toString i ++ "_explanation", PyVal.str
             (if !pyIsEmptyCheck w' then
                "The condition '" ++ "not_empty:x" ++ "' is TRUE because '" ++ "x"
                  ++ "' is not empty"
              else
                "The condition '" ++ "not_empty:x" ++ "' is FALSE because '" ++ "x"
                  ++ "' is empty"))], ctx)) := rfl

/-- C6: for a decision step configured `not_empty:x`, a context binding
`x` to `""` yields `continue=false` by direct evaluation — the outputs are
fixed and independent of the model and parser — and a run stopping this
way ends in state `completed` with detail `completed_stopped_by_decision`;
a context binding `x` to a non-empty (and non-whitespace) string yields
`continue=true`. -/
theorem decision_not_empty_direct_eval (jp jp2 : String → Option PyDict)
    (llm llm2 : Except String String) (aN aI aN2 aI2 nm : String) (i cn : Nat) (ctx : Ctx) :
    (ctxGet ctx "x" = PyVal.str "" →
      executeStepWithLLM jp llm aN aI "decision" i c6Cfg ctx =
        ([("step_" ++ toString i ++ "_condition_result", PyVal.bool false),
          ("step_" ++ toString i ++ "_explanation",
            PyVal.str "The condition 'not_empty:x' is FALSE because 'x' is empty")], ctx) ∧
      executeStepWithLLM jp llm aN aI "decision" i c6Cfg ctx =
        executeStepWithLLM jp2 llm2 aN2 aI2 "decision" i c6Cfg ctx ∧
      (executeStep 0 nm "decision" cn
        (fun c => Except.ok (executeStepWithLLM jp llm aN aI "decision" 0 c6Cfg c)) ctx).2.1
        = false) ∧
    (∀ s : String, s ≠ "" → pyStrip s ≠ "" → ctxGet ctx "x" = PyVal.str s →
      (executeStep 0 nm "decision" cn
        (fun c => Except.ok (executeStepWithLLM jp llm aN aI "decision" 0 c6Cfg c)) ctx).2.1
        = true) ∧
    (∀ eid aid anm uid obj : String,
      (runWorkflow [⟨"Decide", "d", "decision"⟩]
        (fun k c => Except.ok (executeStepWithLLM jp llm aN aI "decision" k c6Cfg c))
        20 [("x", PyVal.str "")] eid aid anm uid obj).state = "completed" ∧
      ctxGet (runWorkflow [⟨"Decide", "d", "decision"⟩]
        (fun k c => Except.ok (executeStepWithLLM jp llm aN aI "decision" k c6Cfg c))
        20 [("x", PyVal.str "")] eid aid anm uid obj).ctx "workflow_status_detail" =
        PyVal.str "completed_stopped_by_decision") := by
  refine ⟨fun hx => ?_, fun s hs1 hs2 hx => ?_, fun eid aid anm uid obj => ?_⟩
  · have h0 : executeStepWithLLM jp llm aN aI "decision" 0 c6Cfg ctx =
        ([("step_" ++ toString 0 ++ "_condition_result", PyVal.bool false),
          ("step_" ++ toString 0 ++ "_explanation",
            PyVal.str "The condition 'not_empty:x' is FALSE because 'x' is empty")], ctx) := by
      rw [c6_direct_eval jp llm aN aI 0 ctx, hx]
      rfl
    refine ⟨?_, ?_, ?_⟩
    · rw [c6_direct_eval jp llm aN aI i ctx, hx]
      rfl
    · rw [c6_direct_eval jp llm aN aI i ctx, c6_direct_eval jp2 llm2 aN2 aI2 i ctx, hx]
    · simp only [executeStep, h0]
      rfl
  · have hb1 : (s == "") = false := beq_eq_false_iff_ne.mpr hs1
    have hb2 : (pyStrip s == "") = false := beq_eq_false_iff_ne.mpr hs2
    have h0 : executeStepWithLLM jp llm aN aI "decision" 0 c6Cfg ctx =
        ([("step_" ++ toString 0 ++ "_condition_result", PyVal.bool true),
          ("step_" ++ toString 0 ++ "_explanation",
            PyVal.str "The condition 'not_empty:x' is TRUE because 'x' is not empty")],
         ctx) := by
      rw [c6_direct_eval jp llm aN aI 0 ctx, hx]
      show ([("step_" ++ toString 0 ++ "_condition_result",
              PyVal.bool (!(s == "" || pyStrip s == ""))),
            ("step_" ++ toString 0 ++ "_explanation", PyVal.str
              (if (!(s == "" || pyStrip s == "")) = true then
                "The condition '" ++ "not_empty:x" ++ "' is TRUE because '" ++ "x"
                  ++ "' is not empty"
              else
                "The condition '" ++ "not_empty:x" ++ "' is FALSE because '" ++ "x"
                  ++ "' is empty"))], ctx) = _
      rw [hb1, hb2]
      rfl
    simp only [executeStep, h0]
    rfl
  · have hCx : ctxGet (seedCtx [("x", PyVal.str "")] eid aid anm uid obj) "x" =
        PyVal.str "" := rfl
    simp only [runWorkflow]
    generalize hC : seedCtx [("x", PyVal.str "")] eid aid anm uid obj = C
    rw [hC] at hCx
    have h0C : executeStepWithLLM jp llm aN aI "decision" 0 c6Cfg C =
        ([("step_" ++ toString 0 ++ "_condition_result", PyVal.bool false),
          ("step_" ++ toString 0 ++ "_explanation",
            PyVal.str "The condition 'not_empty:x' is FALSE because 'x' is empty")], C) := by
      rw [c6_direct_eval jp llm aN aI 0 C, hCx]
      rfl
    have hloop : workflowLoop [⟨"Decide", "d", "decision"⟩]
        (fun k c => Except.ok (executeStepWithLLM jp llm aN aI "decision" k c6Cfg c)) 20
        ⟨C, 0, 0, true, []⟩ =
        stepOnce [⟨"Decide", "d", "decision"⟩]
          (fun k c => Except.ok (executeStepWithLLM jp llm aN aI "decision" k c6Cfg c))
          ⟨C, 0, 0, true, []⟩ := by
      rw [show (20 : Nat) = 19 + 1 from rfl, workflowLoop, if_pos ⟨by simp, rfl⟩]
      exact workflowLoop_stop _ _ _ _ (by
        rw [stepOnce_stepIndex]
        simp)
    have hsc : (stepOnce [⟨"Decide", "d", "decision"⟩]
        (fun k c => Except.ok (executeStepWithLLM jp llm aN aI "decision" k c6Cfg c))
        ⟨C, 0, 0, true, []⟩).shouldContinue = false := by
      rw [stepOnce_shouldContinue]
      show (executeStep 0 "Decide" "decision" (0 + 1)
        (fun c => Except.ok (executeStepWithLLM jp llm aN aI "decision" 0 c6Cfg c)) C).2.1
        = false
      simp only [executeStep, h0C]
      rfl
    rw [if_neg (by simp)]
    rw [hloop]
    rw [if_neg (by
      rw [stepOnce_stepIndex]
      simp)]
    rw [if_pos (by rw [hsc]; rfl)]
    rw [finalizeRun_of_completed _ rfl]
    refine ⟨rfl, ?_⟩
    show ctxGet (ctxSet (stepOnce [⟨"Decide", "d", "decision"⟩]
      (fun k c => Except.ok (executeStepWithLLM jp llm aN aI "decision" k c6Cfg c))
      ⟨C, 0, 0, true, []⟩).ctx "workflow_status_detail"
      (PyVal.str "completed_stopped_by_decision")) "workflow_status_detail" = _
    exact ctxGet_ctxSet_self _ _ _

/-- A parser stub for the C6 witness (never consulted). -/
def c6wJp : String → Option PyDict := fun _ => Option.none

/-- Witness for C6 at concrete inputs. -/
theorem decision_not_empty_direct_eval_witness :
    ctxGet (⟨[("x", PyVal.str "")], []⟩ : Ctx) "x" = PyVal.str "" ∧
    (executeStep 0 "Decide" "decision" 1
      (fun c => Except.ok (executeStepWithLLM c6wJp (Except.ok "") "A" "a" "decision" 0
        c6Cfg c)) ⟨[("x", PyVal.str "")], []⟩).2.1 = false ∧
    ("v" : String) ≠ "" ∧ pyStrip "v" ≠ "" ∧
    (executeStep 0 "Decide" "decision" 1
      (fun c => Except.ok (executeStepWithLLM c6wJp (Except.ok "") "A" "a" "decision" 0
        c6Cfg c)) ⟨[("x", PyVal.str "v")], []⟩).2.1 = true ∧
    (runWorkflow [⟨"Decide", "d", "decision"⟩]
      (fun k c => Except.ok (executeStepWithLLM c6wJp (Except.ok "") "A" "a" "decision" k
        c6Cfg c)) 20 [("x", PyVal.str "")] "e" "a" "n" "u" "o").state = "completed" := by
  have h1 := decision_not_empty_direct_eval c6wJp c6wJp (Except.ok "") (Except.ok "")
    "A" "a" "A" "a" "Decide" 0 1 ⟨[("x", PyVal.str "")], []⟩
  have h2 := decision_not_empty_direct_eval c6wJp c6wJp (Except.ok "") (Except.ok "")
    "A" "a" "A" "a" "Decide" 0 1 ⟨[("x", PyVal.str "v")], []⟩
  exact ⟨rfl, (h1.1 rfl).2.2, by decide, by decide,
    h2.2.1 "v" (by decide) (by decide) rfl, (h1.2.2 "e" "a" "n" "u" "o").1⟩

/-! ### C3: placeholder substitution in `get_step_config` -/

/-- `Nat.digitChar` of a value below ten is a digit character. -/
theorem digitChar_isDigit (m : Nat) (h : m < 10) : (Nat.digitChar m).isDigit = true := by
  interval_cases m <;> decide

/-- Every character `Nat.toDigitsCore` emits in base ten is a digit. -/
theorem toDigitsCore_all_digits (fuel : Nat) :
    ∀ (n : Nat) (acc : List Char), (∀ c ∈ acc, c.isDigit = true) →
      ∀ c ∈ Nat.toDigitsCore 10 fuel n acc, c.isDigit = true := by
  induction fuel with
  | zero =>
    intro n acc hacc c hc
    exact hacc c hc
  | succ f ih =>
    intro n acc hacc c hc
    rw [Nat.toDigitsCore] at hc
    by_cases hn : n / 10 = 0
    · rw [if_pos hn] at hc
      rcases List.mem_cons.mp hc with h1 | h2
      · exact h1 ▸ digitChar_isDigit _ (Nat.mod_lt _ (by norm_num))
      · exact hacc c h2
    · rw [if_neg hn] at hc
      refine ih (n / 10) _ ?_ c hc
      intro c2 hc2
      rcases List.mem_cons.mp hc2 with h1 | h2
      · exact h1 ▸ digitChar_isDigit _ (Nat.mod_lt _ (by norm_num))
      · exact hacc c2 h2

/-- The decimal rendering of a natural number is all digits. -/
theorem toString_nat_all_digits (n : Nat) : ∀ c ∈ (toString n).data, c.isDigit = true := by
  have he : (toString n).data = Nat.toDigitsCore 10 (n + 1) n [] := rfl
  rw [he]
  exact toDigitsCore_all_digits (n + 1) n [] (by simp)

/-- No brace occurs in the decimal rendering of a natural number. -/
theorem brace_not_mem_toString (n : Nat) : '\x7b' ∉ (toString n).data := by
  intro hmem
  exact absurd (toString_nat_all_digits n _ hmem) (by decide)

/-- A pattern whose head character never occurs in the text is not a
substring of it. -/
theorem containsSub_false_of_head_notMem (s : List Char) (c0 : Char) (rest : List Char)
    (h : c0 ∉ s) : containsSub s (c0 :: rest) = false := by
  induction s with
  | nil => rfl
  | cons a as ih =>
    have hne : (c0 == a) = false :=
      beq_eq_false_iff_ne.mpr (fun he => h (he ▸ List.mem_cons_self a as))
    simp only [containsSub, List.isPrefixOf, hne, Bool.false_and, Bool.false_or]
    exact ih (fun hm => h (List.mem_cons_of_mem a hm))

/-- Replacement scanning is the identity when the pattern never occurs. -/
theorem replaceAllAux_no_occ (pat rep : List Char) (fuel : Nat) (s : List Char)
    (h : containsSub s pat = false) : replaceAllAux pat rep fuel s = s := by
  induction fuel generalizing s with
  | zero => rfl
  | succ f ih =>
    cases s with
    | nil => rfl
    | cons c rest =>
      simp only [containsSub, Bool.or_eq_false_iff] at h
      rw [replaceAllAux, if_neg (by simp [h.1]), ih rest h.2]

/-- `str.replace` is the identity when the pattern's head character never
occurs in the string. -/
theorem pyReplace_no_head_occ (s pat rep : String) (c0 : Char) (rest : List Char)
    (hpat : pat.data = c0 :: rest) (h : c0 ∉ s.data) : pyReplace s pat rep = s := by
  unfold pyReplace
  rw [hpat, replaceAllAux_no_occ _ _ _ _ (containsSub_false_of_head_notMem s.data c0 rest h)]

/-- No brace occurs in `a ++ toString n ++ b` when none occurs in `a`, `b`. -/
theorem brace_notMem_str_concat (a b : String) (n : Nat) (ha : '\x7b' ∉ a.data)
    (hb : '\x7b' ∉ b.data) : '\x7b' ∉ (a ++ toString n ++ b).data := by
  show '\x7b' ∉ (a.data ++ (toString n).data) ++ b.data
  intro hmem
  rcases List.mem_append.mp hmem with h12 | h3
  · rcases List.mem_append.mp h12 with h1 | h2
    · exact ha h1
    · exact brace_not_mem_toString n h2
  · exact hb h3

/-- At a positive ordinal, the `step_\x7bindex\x7d_input` default substitutes the
step's own ordinal. -/
theorem substDefault_index_input (m : Nat) :
    substDefault (m + 1) (.str "step_\x7bindex\x7d_input") =
      .str ("step_" ++ toString (m + 1) ++ "_input") := by
  show PyVal.str (pyReplace (pyReplace "step_\x7bindex\x7d_input" "\x7bindex\x7d"
      (toString (m + 1))) "\x7bprev_index\x7d"
      (if m + 1 > 0 then toString (m + 1 - 1) else "")) = _
  rw [show pyReplace "step_\x7bindex\x7d_input" "\x7bindex\x7d" (toString (m + 1)) =
      "step_" ++ toString (m + 1) ++ "_input" from rfl]
  rw [pyReplace_no_head_occ ("step_" ++ toString (m + 1) ++ "_input") "\x7bprev_index\x7d" _
      '\x7b' "prev_index\x7d".data rfl
      (brace_notMem_str_concat "step_" "_input" (m + 1) (by decide) (by decide))]

/-- At a positive ordinal, the `step_\x7bindex\x7d_result` default substitutes the
step's own ordinal. -/
theorem substDefault_index_result (m : Nat) :
    substDefault (m + 1) (.str "step_\x7bindex\x7d_result") =
      .str ("step_" ++ toString (m + 1) ++ "_result") := by
  show PyVal.str (pyReplace (pyReplace "step_\x7bindex\x7d_result" "\x7bindex\x7d"
      (toString (m + 1))) "\x7bprev_index\x7d"
      (if m + 1 > 0 then toString (m + 1 - 1) else "")) = _
  rw [show pyReplace "step_\x7bindex\x7d_result" "\x7bindex\x7d" (toString (m + 1)) =
      "step_" ++ toString (m + 1) ++ "_result" from rfl]
  rw [pyReplace_no_head_occ ("step_" ++ toString (m + 1) ++ "_result") "\x7bprev_index\x7d" _
      '\x7b' "prev_index\x7d".data rfl
      (brace_notMem_str_concat "step_" "_result" (m + 1) (by decide) (by decide))]

/-- At a positive ordinal, a `step_\x7bindex\x7d_result` list element substitutes
the step's own ordinal. -/
theorem substDefault_index_list (m : Nat) :
    substDefault (m + 1) (.list [.str "step_\x7bindex\x7d_result"]) =
      .list [.str ("step_" ++ toString (m + 1) ++ "_result")] := by
  show PyVal.list [if m + 1 > 0 then
      PyVal.str (pyReplace (pyReplace "step_\x7bindex\x7d_result" "\x7bindex\x7d"
        (toString (m + 1))) "\x7bprev_index\x7d" (toString (m + 1 - 1)))
    else PyVal.str "step_\x7bindex\x7d_result"] = _
  rw [if_pos (Nat.succ_pos m)]
  rw [show pyReplace "step_\x7bindex\x7d_result" "\x7bindex\x7d" (toString (m + 1)) =
      "step_" ++ toString (m + 1) ++ "_result" from rfl]
  rw [pyReplace_no_head_occ ("step_" ++ toString (m + 1) ++ "_result") "\x7bprev_index\x7d" _
      '\x7b' "prev_index\x7d".data rfl
      (brace_notMem_str_concat "step_" "_result" (m + 1) (by decide) (by decide))]

/-- At a positive ordinal, a `step_\x7bprev_index\x7d_result` list element
substitutes the previous ordinal. -/
theorem substDefault_prev_list (m : Nat) :
    substDefault (m + 1) (.list [.str "step_\x7bprev_index\x7d_result"]) =
      .list [.str ("step_" ++ toString m ++ "_result")] := by
  show PyVal.list [if m + 1 > 0 then
      PyVal.str (pyReplace (pyReplace "step_\x7bprev_index\x7d_result" "\x7bindex\x7d"
        (toString (m + 1))) "\x7bprev_index\x7d" (toString (m + 1 - 1)))
    else PyVal.str "step_\x7bprev_index\x7d_result"] = _
  rw [if_pos (Nat.succ_pos m)]
  rfl

/-- `get_step_config` with the step at the given ordinal resolved. -/
theorem getStepConfig_eq (steps : List WStep) (i : Nat) (st : WStep)
    (h : steps.get? i = some st) :
    getStepConfig steps i = (stepDefaults st.type).foldl
      (fun cfg kv => pySet cfg kv.1 (substDefault i kv.2))
      [("step", .str st.step), ("description", .str st.description),
       ("type", .str st.type)] := by
  simp only [getStepConfig, h]

/-- C3: building the step config at ordinal 0, every default string or
list element mentioning the previous-ordinal placeholder is dropped (the
`process`/`decision`/`transform` input lists come out empty), so no
negative index is formed; at every ordinal `m + 1 > 0`, both placeholders
in default strings and list elements are substituted with the step's own
ordinal and its predecessor.  The `tool` kind's dict defaults are neither
strings nor list elements and pass through verbatim. -/
theorem placeholder_substitution (nm d : String) (m : Nat) :
    (getStepConfig [⟨nm, d, "input"⟩] 0 =
      [("step", PyVal.str nm), ("description", PyVal.str d), ("type", PyVal.str "input"),
       ("variable_name", PyVal.str "step_0_input"), ("default_value", PyVal.none),
       ("output_variable_name", PyVal.str "step_0_result")] ∧
     getStepConfig [⟨nm, d, "trigger"⟩] 0 =
      [("step", PyVal.str nm), ("description", PyVal.str d), ("type", PyVal.str "trigger"),
       ("output_variable_name", PyVal.str "step_0_result")] ∧
     getStepConfig [⟨nm, d, "output"⟩] 0 =
      [("step", PyVal.str nm), ("description", PyVal.str d), ("type", PyVal.str "output"),
       ("output_variables", PyVal.list [PyVal.str "step_\x7bindex\x7d_result"]),
       ("format", PyVal.none)] ∧
     getStepConfig [⟨nm, d, "process"⟩] 0 =
      [("step", PyVal.str nm), ("description", PyVal.str d), ("type", PyVal.str "process"),
       ("input_variables", PyVal.list []),
       ("output_variable_name", PyVal.str "step_0_result")] ∧
     getStepConfig [⟨nm, d, "tool"⟩] 0 =
      [("step", PyVal.str nm), ("description", PyVal.str d), ("type", PyVal.str "tool"),
       ("tool_name", PyVal.str "exa_search"),
       ("input_mapping", PyVal.dict [("query", PyVal.str "step_\x7bprev_index\x7d_result")]),
       ("output_mapping", PyVal.dict [("search_results", PyVal.str "$output")])] ∧
     getStepConfig [⟨nm, d, "decision"⟩] 0 =
      [("step", PyVal.str nm), ("description", PyVal.str d), ("type", PyVal.str "decision"),
       ("condition", PyVal.str "not_empty:step_result"),
       ("input_variables", PyVal.list [])] ∧
     getStepConfig [⟨nm, d, "transform"⟩] 0 =
      [("step", PyVal.str nm), ("description", PyVal.str d), ("type", PyVal.str "transform"),
       ("transformation", PyVal.str "json_stringify"),
       ("input_variables", PyVal.list []),
       ("output_variable", PyVal.str "step_0_result")]) ∧
    ((∀ steps : List WStep, steps.get? (m + 1) = some ⟨nm, d, "input"⟩ →
      getStepConfig steps (m + 1) =
      [("step", PyVal.str nm), ("description", PyVal.str d), ("type", PyVal.str "input"),
       ("variable_name", PyVal.str ("step_" ++ toString (m + 1) ++ "_input")),
       ("default_value", PyVal.none),
       ("output_variable_name", PyVal.str ("step_" ++ toString (m + 1) ++ "_result"))]) ∧
     (∀ steps : List WStep, steps.get? (m + 1) = some ⟨nm, d, "trigger"⟩ →
      getStepConfig steps (m + 1) =
      [("step", PyVal.str nm), ("description", PyVal.str d), ("type", PyVal.str "trigger"),
       ("output_variable_name", PyVal.str ("step_" ++ toString (m + 1) ++ "_result"))]) ∧
     (∀ steps : List WStep, steps.get? (m + 1) = some ⟨nm, d, "output"⟩ →
      getStepConfig steps (m + 1) =
      [("step", PyVal.str nm), ("description", PyVal.str d), ("type", PyVal.str "output"),
       ("output_variables", PyVal.list [PyVal.str ("step_" ++ toString (m + 1) ++ "_result")]),
       ("format", PyVal.none)]) ∧
     (∀ steps : List WStep, steps.get? (m + 1) = some ⟨nm, d, "process"⟩ →
      getStepConfig steps (m + 1) =
      [("step", PyVal.str nm), ("description", PyVal.str d), ("type", PyVal.str "process"),
       ("input_variables", PyVal.list [PyVal.str ("step_" ++ toString m ++ "_result")]),
       ("output_variable_name", PyVal.str ("step_" ++ toString (m + 1) ++ "_result"))]) ∧
     (∀ steps : List WStep, steps.get? (m + 1) = some ⟨nm, d, "tool"⟩ →
      getStepConfig steps (m + 1) =
      [("step", PyVal.str nm), ("description", PyVal.str d), ("type", PyVal.str "tool"),
       ("tool_name", PyVal.str "exa_search"),
       ("input_mapping", PyVal.dict [("query", PyVal.str "step_\x7bprev_index\x7d_result")]),
       ("output_mapping", PyVal.dict [("search_results", PyVal.str "$output")])]) ∧
     (∀ steps : List WStep, steps.get? (m + 1) = some ⟨nm, d, "decision"⟩ →
      getStepConfig steps (m + 1) =
      [("step", PyVal.str nm), ("description", PyVal.str d), ("type", PyVal.str "decision"),
       ("condition", PyVal.str "not_empty:step_result"),
       ("input_variables", PyVal.list [PyVal.str ("step_" ++ toString m ++ "_result")])]) ∧
     (∀ steps : List WStep, steps.get? (m + 1) = some ⟨nm, d, "transform"⟩ →
      getStepConfig steps (m + 1) =
      [("step", PyVal.str nm), ("description", PyVal.str d), ("type", PyVal.str "transform"),
       ("transformation", PyVal.str "json_stringify"),
       ("input_variables", PyVal.list [PyVal.str ("step_" ++ toString m ++ "_result")]),
       ("output_variable", PyVal.str ("step_" ++ toString (m + 1) ++ "_result"))])) := by
  refine ⟨⟨rfl, rfl, rfl, rfl, rfl, rfl, rfl⟩,
    fun steps hstep => ?_, fun steps hstep => ?_, fun steps hstep => ?_,
    fun steps hstep => ?_, fun steps hstep => ?_, fun steps hstep => ?_,
    fun steps hstep => ?_⟩
  · rw [getStepConfig_eq steps (m + 1) ⟨nm, d, "input"⟩ hstep]
    show [("step", PyVal.str nm), ("description", PyVal.str d), ("type", PyVal.str "input"),
      ("variable_name", substDefault (m + 1) (PyVal.str "step_\x7bindex\x7d_input")),
      ("default_value", substDefault (m + 1) PyVal.none),
      ("output_variable_name", substDefault (m + 1) (PyVal.str "step_\x7bindex\x7d_result"))]
      = _
    rw [substDefault_index_input m, substDefault_index_result m]
    rfl
  · rw [getStepConfig_eq steps (m + 1) ⟨nm, d, "trigger"⟩ hstep]
    show [("step", PyVal.str nm), ("description", PyVal.str d), ("type", PyVal.str "trigger"),
      ("output_variable_name", substDefault (m + 1) (PyVal.str "step_\x7bindex\x7d_result"))]
      = _
    rw [substDefault_index_result m]
  · rw [getStepConfig_eq steps (m + 1) ⟨nm, d, "output"⟩ hstep]
    show [("step", PyVal.str nm), ("description", PyVal.str d), ("type", PyVal.str "output"),
      ("output_variables", substDefault (m + 1) (PyVal.list [PyVal.str "step_\x7bindex\x7d_result"])),
      ("format", substDefault (m + 1) PyVal.none)] = _
    rw [substDefault_index_list m]
    rfl
  · rw [getStepConfig_eq steps (m + 1) ⟨nm, d, "process"⟩ hstep]
    show [("step", PyVal.str nm), ("description", PyVal.str d), ("type", PyVal.str "process"),
      ("input_variables", substDefault (m + 1) (PyVal.list [PyVal.str "step_\x7bprev_index\x7d_result"])),
      ("output_variable_name", substDefault (m + 1) (PyVal.str "step_\x7bindex\x7d_result"))]
      = _
    rw [substDefault_prev_list m, substDefault_index_result m]
  · rw [getStepConfig_eq steps (m + 1) ⟨nm, d, "tool"⟩ hstep]
    rfl
  · rw [getStepConfig_eq steps (m + 1) ⟨nm, d, "decision"⟩ hstep]
    show [("step", PyVal.str nm), ("description", PyVal.str d), ("type", PyVal.str "decision"),
      ("condition", substDefault (m + 1) (PyVal.str "not_empty:step_result")),
      ("input_variables", substDefault (m + 1) (PyVal.list [PyVal.str "step_\x7bprev_index\x7d_result"]))]
      = _
    rw [substDefault_prev_list m]
    rfl
  · rw [getStepConfig_eq steps (m + 1) ⟨nm, d, "transform"⟩ hstep]
    show [("step", PyVal.str nm), ("description", PyVal.str d), ("type", PyVal.str "transform"),
      ("transformation", substDefault (m + 1) (PyVal.str "json_stringify")),
      ("input_variables", substDefault (m + 1) (PyVal.list [PyVal.str "step_\x7bprev_index\x7d_result"])),
      ("output_variable", substDefault (m + 1) (PyVal.str "step_\x7bindex\x7d_result"))] = _
    rw [substDefault_prev_list m, substDefault_index_result m]
    rfl

/-- Witness for C3 at concrete inputs: a process step at ordinal 1
receives the substituted indices, and at ordinal 0 the previous-ordinal
input list is dropped. -/
theorem placeholder_substitution_witness :
    [(⟨"A", "x", "input"⟩ : WStep), ⟨"S", "D", "process"⟩].get? 1 =
      some ⟨"S", "D", "process"⟩ ∧
    getStepConfig [⟨"A", "x", "input"⟩, ⟨"S", "D", "process"⟩] 1 =
      [("step", PyVal.str "S"), ("description", PyVal.str "D"),
       ("type", PyVal.str "process"),
       ("input_variables", PyVal.list [PyVal.str ("step_" ++ toString 0 ++ "_result")]),
       ("output_variable_name", PyVal.str ("step_" ++ toString 1 ++ "_result"))] ∧
    getStepConfig [⟨"S", "D", "process"⟩] 0 =
      [("step", PyVal.str "S"), ("description", PyVal.str "D"),
       ("type", PyVal.str "process"),
       ("input_variables", PyVal.list []),
       ("output_variable_name", PyVal.str "step_0_result")] := by
  have h := placeholder_substitution "S" "D" 0
  exact ⟨rfl, h.2.2.2.2.1 [⟨"A", "x", "input"⟩, ⟨"S", "D", "process"⟩] rfl, h.1.2.2.2.1⟩

end Logos
